import Mathlib

/-
Verification of the configuration-validation and dependency-resolution
engine of the cryo/iceforge build tool, as a shallow embedding in Lean 4.

Source files embedded (Rust):
  src/build_config/build_settings.rs    (check_compiler_details)
  src/build_config/dependencies.rs      (Dependencies, Iterator, has_dependency,
                                         check_dependencies)
  src/build_config/subproject.rs        (SubProject, check_duplicate_names,
                                         check_subproject_dependencies,
                                         dfs_cycle_detection, dfs_topological_sort,
                                         check_circular_dependencies_and_get_build_order,
                                         verify_subprojects)
  src/build_config/override.rs          (Override, verify_overrides)
  src/build_config/custom_build_rule.rs (CustomBuildRule, verify_custom_build_rules)
  src/build_config/error.rs             (Error, ErrorType, AdditionalInfo)
  src/build_config.rs                   (BuildConfig, verify_config - the version
                                         present in the tree, which ends in todo)

External effects (shelling out to `which`, the compiler standard probe and
`pkg-config --exists`) are modelled by probe oracles passed explicitly, and
Rust panics (todo, unreachable) are modelled by an explicit result
constructor.  Machine integers (byte offsets of spans) are modelled as Nat:
they are only stored and compared for equality, never computed with.
-/

namespace Cryo

/-- Byte range of a value in the original configuration text
(Rust `Range<usize>`). -/
structure Srange where
  lo : Nat
  hi : Nat
deriving DecidableEq, Repr

/-- The toml `Spanned<T>` wrapper: a parsed value plus its byte range.
In Rust, `Spanned` implements `PartialEq`/`Hash` on the inner value only;
the embedding therefore never compares `Spanned` values structurally when
modelling a `HashSet` lookup, it compares the `value` fields (see
`findSp` below). -/
structure Spanned (α : Type) where
  value : α
  span : Srange
deriving DecidableEq, Repr

/-- Error taxonomy of `src/build_config/error.rs` (`ErrorType`). -/
inductive ErrorType where
  | TomlParseError
  | IncorrectCompiler
  | UnsupportedCStandard
  | DuplicateDependencySource
  | DuplicateDependencyName
  | DuplicateDependencyIncludeName
  | CustomBuildMissing
  | ExtraFieldNonCustomBuild
  | InvalidPkgConfigQuery
  | DuplicateSubprojectName
  | InvalidSubprojectDependency
  | CircularDependency
  | OverrideNameConflict
  | DuplicateCustomBuildRuleName
deriving DecidableEq, Repr

/-- Secondary diagnostic location (`AdditionalInfo`). -/
structure AdditionalInfo where
  span : Srange
  message : String
deriving DecidableEq, Repr

/-- Validation error (`Error` in `error.rs`): kind, message, optional
primary span, optional secondary location. -/
structure Error where
  error_type : ErrorType
  message : String
  span : Option Srange
  additional_info : Option AdditionalInfo
deriving DecidableEq, Repr

/-- Result of running a piece of Rust code that may return `Ok`, return
`Err`, or panic (todo / unreachable macros). -/
inductive BResult (α : Type) where
  | ok (a : α)
  | err (e : Error)
  | panic (msg : String)
deriving DecidableEq, Repr

/-- Build method of a remote dependency (`RemoteBuildMethod`). -/
inductive RemoteBuildMethod where
  | HeaderOnly
  | Cmake
  | Meson
  | Iceforge
  | Custom
deriving DecidableEq, Repr

/-- Remote dependency entry (`RemoteDependency`). -/
structure RemoteDependency where
  name : Spanned String
  version : Option (Spanned String)
  source : Spanned String
  include_name : Option (Spanned String)
  include_dirs : List String
  build_method : Option RemoteBuildMethod
  build_command : Option (Spanned String)
  build_output : Option (Spanned String)
  imports : Option (List String)
deriving DecidableEq, Repr

/-- Pkg-config dependency entry (`PkgConfigDependency`). -/
structure PkgConfigDependency where
  name : Spanned String
  pkg_config_query : Spanned String
deriving DecidableEq, Repr

/-- Manual dependency entry (`ManualDependency`). -/
structure ManualDependency where
  name : Spanned String
  cflags : Option String
  ldflags : Option String
deriving DecidableEq, Repr

/-- The three dependency collections (`Dependencies`), each a `Vec` of
spanned entries. -/
structure Dependencies where
  remote : List (Spanned RemoteDependency)
  pkg_config : List (Spanned PkgConfigDependency)
  manual : List (Spanned ManualDependency)
deriving DecidableEq, Repr

/-- Tagged union produced by the `Dependencies` iterator (`Dependency`). -/
inductive Dependency where
  | remote (d : Spanned RemoteDependency)
  | pkgConfig (d : Spanned PkgConfigDependency)
  | manual (d : Spanned ManualDependency)
deriving DecidableEq, Repr

/-- Total number of entries across the three collections. -/
def Dependencies.totalLen (d : Dependencies) : Nat :=
  d.remote.length + d.pkg_config.length + d.manual.length

/-- The draining `Iterator::next` of `Dependencies`: `Vec::pop` removes the
LAST element, so entries are produced in reverse declaration order, remote
first, then pkg-config, then manual.  Returns the produced item together
with the collection state after the pop. -/
def Dependencies.next (d : Dependencies) : Option (Dependency × Dependencies) :=
  match d.remote.getLast? with
  | some r => some (Dependency.remote r, { d with remote := d.remote.dropLast })
  | none =>
    match d.pkg_config.getLast? with
    | some p => some (Dependency.pkgConfig p, { d with pkg_config := d.pkg_config.dropLast })
    | none =>
      match d.manual.getLast? with
      | some m => some (Dependency.manual m, { d with manual := d.manual.dropLast })
      | none => none

/-- Iterating a `Dependencies` value to exhaustion, with explicit fuel
(the fuel is only a structural-recursion device; `Dependencies.drain`
always supplies exactly enough). -/
def Dependencies.drainFuel : Nat → Dependencies → List Dependency
  | 0, _ => []
  | n + 1, d =>
    match d.next with
    | none => []
    | some (x, d') => x :: Dependencies.drainFuel n d'

/-- The full sequence a `for dep in self.clone()` loop visits. -/
def Dependencies.drain (d : Dependencies) : List Dependency :=
  Dependencies.drainFuel d.totalLen d

/-- Name carried by a produced dependency item (the per-variant `name`
field reads in `has_dependency`). -/
def Dependency.depName : Dependency → String
  | .remote r => r.value.name.value
  | .pkgConfig p => p.value.name.value
  | .manual m => m.value.name.value

/-- Loop body of `has_dependency`: scan the drained sequence for a name. -/
def hasDepScan (name : String) : List Dependency → Bool
  | [] => false
  | dep :: rest => if dep.depName = name then true else hasDepScan name rest

/-- Read-only name query `Dependencies::has_dependency`: iterates
`self.clone()` (the clone is drained, the receiver is untouched). -/
def Dependencies.has_dependency (d : Dependencies) (name : String) : Bool :=
  hasDepScan name d.drain

/-- State-passing view of the Rust call `self.has_dependency(name)`: the
receiver is borrowed immutably and the loop consumes `self.clone()`, so the
call returns the answer together with the unchanged receiver. -/
def Dependencies.has_dependency_call (d : Dependencies) (name : String) :
    Bool × Dependencies :=
  (Dependencies.has_dependency d name, d)

/-- HashSet-of-`Spanned<String>` lookup: equality and hashing are on the
inner value only. -/
def findSp (s : List (Spanned String)) (v : String) : Option (Spanned String) :=
  s.find? (fun y => decide (y.value = v))

/-- The local `RemoteInfo` key of `check_dependencies`: source url plus
optional version, compared by inner values. -/
structure RemoteInfo where
  url : Spanned String
  version : Option (Spanned String)
deriving DecidableEq, Repr

/-- Value equality of optional spanned strings (the derived `PartialEq` of
`Option<Spanned<String>>`, with `Spanned` comparing values only). -/
def optValEq : Option (Spanned String) → Option (Spanned String) → Bool
  | none, none => true
  | some a, some b => decide (a.value = b.value)
  | _, _ => false

/-- Value equality of `RemoteInfo` keys. -/
def riEq (a b : RemoteInfo) : Bool :=
  decide (a.url.value = b.url.value) && optValEq a.version b.version

/-- HashSet-of-`RemoteInfo` lookup by value equality. -/
def findRI (s : List RemoteInfo) (x : RemoteInfo) : Option RemoteInfo :=
  s.find? (fun y => riEq y x)

/-- Build-method field discipline for one remote dependency: the
`build_method` block at the end of the `Dependency::Remote` arm of
`check_dependencies`.  No declared method means no check at all. -/
def remoteBuildCheck (remote : Spanned RemoteDependency) : Except Error Unit :=
  match remote.value.build_method with
  | none => .ok ()
  | some build_method =>
    if build_method = RemoteBuildMethod.Custom then
      match remote.value.build_command with
      | none =>
        .error { error_type := .CustomBuildMissing,
                 message := "Custom build method missing build_command",
                 span := some remote.span,
                 additional_info := none }
      | some _ => .ok ()
    else
      match remote.value.build_output with
      | some build_output =>
        .error { error_type := .ExtraFieldNonCustomBuild,
                 message := "Non-Custom build method has build_output",
                 span := some build_output.span,
                 additional_info := none }
      | none =>
        match remote.value.build_command with
        | some build_command =>
          .error { error_type := .ExtraFieldNonCustomBuild,
                   message := "non-Custom build method has build_command",
                   span := some build_command.span,
                   additional_info := none }
        | none => .ok ()

/-- Loop body of `check_dependencies` over the drained sequence, carrying
the three hash sets (url keys, shared names, include names) as lists
searched by value equality.  `pkgOk` is the outcome oracle of the
`pkg-config --exists` probe. -/
def cdGo (pkgOk : String → Bool) :
    List Dependency → List RemoteInfo → List (Spanned String) →
    List (Spanned String) → Except Error Unit
  | [], _, _, _ => .ok ()
  | .remote remote :: rest, urlSet, nameSet, inclSet =>
    let remote_info : RemoteInfo :=
      { url := remote.value.source, version := remote.value.version }
    match findRI urlSet remote_info with
    | some prev =>
      .error { error_type := .DuplicateDependencySource,
               message := "Duplicate dependency url with same versions",
               span := some remote.value.source.span,
               additional_info := some { span := prev.url.span,
                                         message := "Previously defined here" } }
    | none =>
      match findSp nameSet remote.value.name.value with
      | some prev =>
        .error { error_type := .DuplicateDependencyName,
                 message := "Duplicate dependency name",
                 span := some remote.value.name.span,
                 additional_info := some { span := prev.span,
                                           message := "Previously defined here" } }
      | none =>
        match remote.value.include_name with
        | some include_name =>
          match findSp inclSet include_name.value with
          | some prev =>
            .error { error_type := .DuplicateDependencyIncludeName,
                     message := "Duplicate dependency include name",
                     span := some include_name.span,
                     additional_info := some { span := prev.span,
                                               message := "Previously defined here" } }
          | none =>
            match remoteBuildCheck remote with
            | .error e => .error e
            | .ok _ =>
              cdGo pkgOk rest (remote_info :: urlSet)
                (remote.value.name :: nameSet) (include_name :: inclSet)
        | none =>
          match remoteBuildCheck remote with
          | .error e => .error e
          | .ok _ =>
            cdGo pkgOk rest (remote_info :: urlSet)
              (remote.value.name :: nameSet) inclSet
  | .pkgConfig pkg_config :: rest, urlSet, nameSet, inclSet =>
    match findSp nameSet pkg_config.value.name.value with
    | some prev =>
      .error { error_type := .DuplicateDependencyName,
               message := "Duplicate dependency name",
               span := some pkg_config.value.name.span,
               additional_info := some { span := prev.span,
                                         message := "Previously defined here" } }
    | none =>
      if pkgOk pkg_config.value.pkg_config_query.value then
        cdGo pkgOk rest urlSet (pkg_config.value.name :: nameSet) inclSet
      else
        .error { error_type := .InvalidPkgConfigQuery,
                 message := "Pkg-config dependency not found",
                 span := some pkg_config.value.pkg_config_query.span,
                 additional_info := none }
  | .manual manual :: rest, urlSet, nameSet, inclSet =>
    match findSp nameSet manual.value.name.value with
    | some prev =>
      .error { error_type := .DuplicateDependencyName,
               message := "Duplicate dependency name",
               span := some manual.value.name.span,
               additional_info := some { span := prev.span,
                                         message := "Previously defined here" } }
    | none => cdGo pkgOk rest urlSet (manual.value.name :: nameSet) inclSet

/-- `Dependencies::check_dependencies`: iterates `self.clone()` with empty
sets.  The receiver is only cloned, never mutated. -/
def Dependencies.check_dependencies (d : Dependencies) (pkgOk : String → Bool) :
    Except Error Unit :=
  cdGo pkgOk d.drain [] [] []

/-- State-passing view of the Rust call `self.check_dependencies()`:
borrowed receiver, clone drained, receiver returned unchanged. -/
def Dependencies.check_dependencies_call (d : Dependencies) (pkgOk : String → Bool) :
    (Except Error Unit) × Dependencies :=
  (Dependencies.check_dependencies d pkgOk, d)

/-- Global build settings (`BuildSettings`). -/
structure BuildSettings where
  version : String
  c_standard : Spanned String
  compiler : Spanned String
  global_cflags : Option String
  debug_flags : Option String
  release_flags : Option String
  parallel_jobs : Option Nat
deriving DecidableEq, Repr

/-- Outcomes of the external probes spawned during validation: `which`
resolution of the compiler (first whitespace token of its stdout, `none`
when the spawn fails or prints nothing), the standard-probe compile
(given a resolved path and a standard, did it exit 0), and
`pkg-config --exists` per query string. -/
structure Probes where
  whichCompiler : String → Option String
  stdSupported : String → String → Bool
  pkgExists : String → Bool

/-- `BuildSettings::check_compiler_details`: resolve the compiler with
`which`, failing with `IncorrectCompiler` when no path token comes back,
then probe the standard, failing with `UnsupportedCStandard` when the
probe errors or exits non-zero. -/
def BuildSettings.check_compiler_details (bs : BuildSettings) (p : Probes) :
    Except Error Unit :=
  match p.whichCompiler bs.compiler.value with
  | none =>
    .error { error_type := .IncorrectCompiler,
             message := "Compiler not in path",
             span := some bs.compiler.span,
             additional_info := none }
  | some compiler_path =>
    if p.stdSupported compiler_path bs.c_standard.value then .ok ()
    else
      .error { error_type := .UnsupportedCStandard,
               message := "Unsupported C standard",
               span := some bs.c_standard.span,
               additional_info := none }

/-- Kind of a subproject (`SubProjectType`). -/
inductive SubProjectType where
  | Binary
  | Library
  | HeaderOnly
deriving DecidableEq, Repr

/-- A dependency reference of a subproject (`SubProjectDependency`):
either a bare name or a detailed form with an optional import list. -/
inductive SubProjectDependency where
  | named (name : String)
  | detailed (name : String) (imports : Option (List String))
deriving DecidableEq, Repr

/-- A subproject (`SubProject`). -/
structure SubProject where
  name : Spanned String
  type : SubProjectType
  src_dir : Option String
  include_dirs : Option (List String)
  dependencies : Option (List (Spanned SubProjectDependency))
deriving DecidableEq, Repr

/-- Referenced name of a dependency reference (the match in the
graph-construction step). -/
def SubProjectDependency.refName : SubProjectDependency → String
  | .named name => name
  | .detailed name _ => name

/-- Loop body of `check_duplicate_names`: `name_set` is the
`HashSet<Spanned<String>>` of seen names (value-based), `lib_set` collects
names of library / header-only subprojects. -/
def cdnGo : List SubProject → List (Spanned String) → List String →
    Except Error (List String)
  | [], _, lib_set => .ok lib_set
  | subproject :: rest, name_set, lib_set =>
    match findSp name_set subproject.name.value with
    | some prev =>
      .error { error_type := .DuplicateSubprojectName,
               message := "Duplicate subproject name: " ++ subproject.name.value,
               span := some subproject.name.span,
               additional_info := some
                 { span := prev.span,
                   message := "Previous subproject with same name: " ++
                     subproject.name.value } }
    | none =>
      if subproject.type = SubProjectType.Library ∨
          subproject.type = SubProjectType.HeaderOnly then
        cdnGo rest (subproject.name :: name_set) (subproject.name.value :: lib_set)
      else
        cdnGo rest (subproject.name :: name_set) lib_set

/-- `SubProject::check_duplicate_names`: reject duplicate subproject
names, returning the linkable (library / header-only) name set. -/
def SubProject.check_duplicate_names (selfs : List SubProject) :
    Except Error (List String) :=
  cdnGo selfs [] []

/-- Scan of one subproject's dependency reference list inside
`check_subproject_dependencies`.  `some r` models a `return` out of the
whole function (the Detailed arm returns `Ok(())` for the entire function
as soon as the name is a declared dependency, and reaches an
`unreachable!` panic when the name is a linkable subproject instead);
`none` means the loop finished and the outer loop continues. -/
def scanRefs (dependencies : Dependencies) (lib_set : List String) :
    List (Spanned SubProjectDependency) → Option (BResult Unit)
  | [] => none
  | dep :: rest =>
    match dep.value with
    | .named name =>
      if ¬ dependencies.has_dependency name ∧ name ∉ lib_set then
        some (.err { error_type := .InvalidSubprojectDependency,
                     message := "Invalid dependency: " ++ name,
                     span := some dep.span,
                     additional_info := none })
      else scanRefs dependencies lib_set rest
    | .detailed name _ =>
      if dependencies.has_dependency name then
        some (.ok ())
      else if name ∉ lib_set then
        some (.err { error_type := .InvalidSubprojectDependency,
                     message := "Invalid dependency: " ++ name,
                     span := some dep.span,
                     additional_info := none })
      else
        some (.panic ("How did we get here?"))

/-- `SubProject::check_subproject_dependencies`: resolve every dependency
reference of every subproject against `has_dependency` and the linkable
name set, with the early function-wide return of the Detailed arm. -/
def SubProject.check_subproject_dependencies (selfs : List SubProject)
    (dependencies : Dependencies) (lib_set : List String) : BResult Unit :=
  match selfs with
  | [] => .ok ()
  | subproject :: rest =>
    match scanRefs dependencies lib_set (subproject.dependencies.getD []) with
    | some r => r
    | none => SubProject.check_subproject_dependencies rest dependencies lib_set

/-- Dependency graph as built in step 1 of
`check_circular_dependencies_and_get_build_order`: pairs of subproject
name and flattened dependency names, in declaration order. -/
def depGraph (selfs : List SubProject) : List (String × List String) :=
  selfs.map (fun subproject =>
    (subproject.name.value,
     (subproject.dependencies.getD []).map (fun dep => dep.value.refName)))

/-- HashMap lookup over the association pairs: collecting into a
`HashMap` lets a later pair with the same key overwrite an earlier one,
so the lookup takes the last matching pair. -/
def lookupG (g : List (String × List String)) (k : String) :
    Option (List String) :=
  List.lookup k g.reverse

/-- Edge relation of the dependency graph: `u` depends directly on `v`. -/
def edgeG (g : List (String × List String)) (u v : String) : Prop :=
  ∃ ds, lookupG g u = some ds ∧ v ∈ ds

/-- A node is safe when nothing reachable from it (itself included) lies
on a directed cycle. -/
def SafeG (g : List (String × List String)) (u : String) : Prop :=
  ∀ w, Relation.ReflTransGen (edgeG g) u w → ¬ Relation.TransGen (edgeG g) w w

/-- The graph contains a directed cycle. -/
def HasCycleG (g : List (String × List String)) : Prop :=
  ∃ u, Relation.TransGen (edgeG g) u u

/-- A nonempty list of nodes forming a directed cycle: consecutive edges
along the list and a closing edge from the last element back to the
first. -/
def IsCycleList (g : List (String × List String)) (c : List String) : Prop :=
  c ≠ [] ∧ List.Chain' (edgeG g) c ∧
    ∀ x ∈ c.getLast?, ∀ y ∈ c.head?, edgeG g x y

/-- All node names occurring in the graph (keys and edge targets),
deduplicated; used only to size the structural-recursion fuel. -/
def nodesList (g : List (String × List String)) : List String :=
  (g.map Prod.fst ++ (g.map Prod.snd).flatten).dedup

/-- `dfs_cycle_detection`, Rust's recursive three-state DFS.  `visited`
and `stack` are the two `HashSet<String>` arguments, `path` the explicit
path vector.  On success the updated `visited` is returned (`stack` and
`path` are restored by the Rust code before returning); on a detected
cycle the space-joined path is returned as the error.  `fuel` is a
structural-recursion device; every caller supplies enough for the answer
to be `some`. -/
def SubProject.dfs_cycle_detection (g : List (String × List String)) :
    Nat → String → List String → List String → List String →
    Option (Except String (List String))
  | 0, _, _, _, _ => none
  | fuel + 1, project, visited, stack, path =>
    if project ∈ stack then
      some (.error (String.intercalate (" -> ") (path ++ [project])))
    else if project ∈ visited then
      some (.ok visited)
    else
      ((lookupG g project).getD []).foldl
        (fun acc dep =>
          match acc with
          | some (.ok v) =>
            SubProject.dfs_cycle_detection g fuel dep v (project :: stack)
              (path ++ [project])
          | other => other)
        (some (.ok (project :: visited)))

/-- The fold step of `dfs_cycle_detection` over a dependency list, named
for the lemmas below. -/
def dfsStep (g : List (String × List String)) (fuel : Nat)
    (stack path : List String) :
    Option (Except String (List String)) → String →
    Option (Except String (List String)) :=
  fun acc dep =>
    match acc with
    | some (.ok v) => SubProject.dfs_cycle_detection g fuel dep v stack path
    | other => other

/-- `dfs_topological_sort`: DFS recording post-order finish into `order`.
Returns updated `(visited, order)`. -/
def SubProject.dfs_topological_sort (g : List (String × List String)) :
    Nat → String → List String → List String →
    Option (List String × List String)
  | 0, _, _, _ => none
  | fuel + 1, project, visited, order =>
    if project ∈ visited then some (visited, order)
    else
      match ((lookupG g project).getD []).foldl
          (fun acc dep =>
            match acc with
            | some (v, o) => SubProject.dfs_topological_sort g fuel dep v o
            | none => none)
          (some (project :: visited, order)) with
      | none => none
      | some (v', o') => some (v', o' ++ [project])

/-- The fold step of `dfs_topological_sort`, named for the lemmas below. -/
def topoStep (g : List (String × List String)) (fuel : Nat) :
    Option (List String × List String) → String →
    Option (List String × List String) :=
  fun acc dep =>
    match acc with
    | some (v, o) => SubProject.dfs_topological_sort g fuel dep v o
    | none => none

/-- The `CircularDependency` error built in step 3 of
`check_circular_dependencies_and_get_build_order`. -/
def mkCircErr (subproject : SubProject) (cycle_path : String) : Error :=
  { error_type := .CircularDependency,
    message := "Circular dependency detected in subproject: " ++
      subproject.name.value,
    span := some subproject.name.span,
    additional_info := some
      { span := subproject.name.span,
        message := "Dependency cycle: " ++ cycle_path } }

/-- Step 3 of `check_circular_dependencies_and_get_build_order`: run the
cycle-detection DFS from every subproject, sharing `visited` across
iterations (the recursion stack is empty again whenever a DFS call
returns successfully, and the path vector is fresh per iteration). -/
def phase1 (g : List (String × List String)) (fuel : Nat) :
    List SubProject → List String → Option (Except Error (List String))
  | [], visited => some (.ok visited)
  | subproject :: rest, visited =>
    if subproject.name.value ∈ visited then phase1 g fuel rest visited
    else
      match SubProject.dfs_cycle_detection g fuel subproject.name.value
          visited [] [] with
      | none => none
      | some (.error cycle_path) => some (.error (mkCircErr subproject cycle_path))
      | some (.ok v') => phase1 g fuel rest v'

/-- Step 4 of `check_circular_dependencies_and_get_build_order`: the
topological-sort DFS from every subproject, sharing `visited` and
`order`. -/
def phase2 (g : List (String × List String)) (fuel : Nat) :
    List SubProject → List String → List String →
    Option (List String × List String)
  | [], visited, order => some (visited, order)
  | subproject :: rest, visited, order =>
    if subproject.name.value ∈ visited then phase2 g fuel rest visited order
    else
      match SubProject.dfs_topological_sort g fuel subproject.name.value
          visited order with
      | none => none
      | some (v', o') => phase2 g fuel rest v' o'

/-- `SubProject::check_circular_dependencies_and_get_build_order`: build
the graph, detect cycles, compute the DFS post-order, reverse it (step
5), and map names back to the first subproject carrying each name,
dropping names that match no subproject (step 6). -/
def SubProject.check_circular_dependencies_and_get_build_order
    (selfs : List SubProject) : Option (Except Error (List SubProject)) :=
  let g := depGraph selfs
  let fuel := (nodesList g).length + 1
  match phase1 g fuel selfs [] with
  | none => none
  | some (.error e) => some (.error e)
  | some (.ok _) =>
    match phase2 g fuel selfs [] [] with
    | none => none
    | some (_, topological_order) =>
      some (.ok (topological_order.reverse.filterMap
        (fun name => selfs.find? (fun subproject =>
          decide (subproject.name.value = name)))))

/-- `SubProject::verify_subprojects`: duplicate-name check, reference
resolution, then cycle check and build-order computation. -/
def SubProject.verify_subprojects (selfs : List SubProject)
    (dependencies : Dependencies) : Option (BResult (List SubProject)) :=
  match SubProject.check_duplicate_names selfs with
  | .error e => some (.err e)
  | .ok name_set =>
    match SubProject.check_subproject_dependencies selfs dependencies name_set with
    | .err e => some (.err e)
    | .panic m => some (.panic m)
    | .ok _ =>
      match SubProject.check_circular_dependencies_and_get_build_order selfs with
      | none => none
      | some (.error e) => some (.err e)
      | some (.ok build_order) => some (.ok build_order)

/-- A per-subproject override (`Override`). -/
structure Override where
  name : Spanned String
  c_standard : Option String
  compiler : Option String
  cflags : Option String
  debug_flags : Option String
  release_flags : Option String
  parallel_jobs : Option Nat
deriving DecidableEq, Repr

/-- First loop of `verify_overrides`: reject duplicate override names,
collecting the `HashSet<Spanned<String>>` of names (value-based) in
insertion order. -/
def ovLoop1 : List Override → List (Spanned String) →
    Except Error (List (Spanned String))
  | [], name_set => .ok name_set
  | over :: rest, name_set =>
    match findSp name_set over.name.value with
    | some prev =>
      .error { error_type := .OverrideNameConflict,
               message := "Override name " ++ over.name.value ++
                 " is already in use",
               span := some over.name.span,
               additional_info := some { span := prev.span,
                                         message := "Previous definition" } }
    | none => ovLoop1 rest (name_set ++ [over.name])

/-- Second loop of `verify_overrides`: every collected name must match
some subproject.  The Rust loop iterates the `HashSet` itself, so the
visit order is an arbitrary permutation of the contents; the caller
passes that order explicitly. -/
def ovLoop2 (sub_projects : List SubProject) :
    List (Spanned String) → Except Error Unit
  | [] => .ok ()
  | name :: rest =>
    if sub_projects.any (fun sub => decide (sub.name.value = name.value)) then
      ovLoop2 sub_projects rest
    else
      .error { error_type := .OverrideNameConflict,
               message := "Override name " ++ name.value ++
                 " is not defined in any subproject",
               span := some name.span,
               additional_info := none }

/-- `Override::verify_overrides`.  `setOrder` models the iteration order
of the `for name in name_set` loop over the `HashSet` (any permutation of
the insertion-order list). -/
def Override.verify_overrides (selfs : List Override)
    (sub_projects : List SubProject)
    (setOrder : List (Spanned String) → List (Spanned String)) :
    Except Error Unit :=
  match ovLoop1 selfs [] with
  | .error e => .error e
  | .ok name_set => ovLoop2 sub_projects (setOrder name_set)

/-- Rebuild policy of a custom build rule (`CustomBuildRuleType`). -/
inductive CustomBuildRuleType where
  | IfChanged
  | Always
  | OnTrigger
deriving DecidableEq, Repr

/-- A custom asset-build rule (`CustomBuildRule`). -/
structure CustomBuildRule where
  name : Spanned String
  description : Option String
  src_dir : String
  output_dir : String
  trigger_extensions : List String
  output_extension : String
  command : String
  rebuild_rule : CustomBuildRuleType
deriving DecidableEq, Repr

/-- Loop of `verify_custom_build_rules`: reject duplicate rule names. -/
def cbrGo : List CustomBuildRule → List (Spanned String) → Except Error Unit
  | [], _ => .ok ()
  | cbr :: rest, name_set =>
    match findSp name_set cbr.name.value with
    | some prev =>
      .error { error_type := .DuplicateCustomBuildRuleName,
               message := "Duplicate custom build rule name " ++ cbr.name.value,
               span := some cbr.name.span,
               additional_info := some { span := prev.span,
                                         message := "Previous definition" } }
    | none => cbrGo rest (cbr.name :: name_set)

/-- `CustomBuildRule::verify_custom_build_rules`. -/
def CustomBuildRule.verify_custom_build_rules (selfs : List CustomBuildRule) :
    Except Error Unit :=
  cbrGo selfs []

/-- The aggregate configuration root (`BuildConfig`). -/
structure BuildConfig where
  build : BuildSettings
  dependencies : Dependencies
  subprojects : List SubProject
  custom_build_rules : Option (List CustomBuildRule)
  overrides : Option (List Override)
deriving DecidableEq, Repr

/-- `BuildConfig::verify_config` as present in `src/build_config.rs`: the
compiler check and the dependency check, then an unconditional `todo!()`
panic in place of the remaining phases (the subproject, override and
custom-build-rule verifications are only listed in comments there). -/
def BuildConfig.verify_config_src (cfg : BuildConfig) (p : Probes) :
    BResult Unit :=
  match cfg.build.check_compiler_details p with
  | .error e => .err e
  | .ok _ =>
    match cfg.dependencies.check_dependencies p.pkgExists with
    | .error e => .err e
    | .ok _ => .panic ("not yet implemented")

/-- Modelled from the spec: the five-phase orchestrator `verify_config`
described in section 4.6 (Settings, Dependencies, Subprojects, Overrides,
CustomBuildRules, halting at the first error, with the subprojects
replaced by the computed build order on success).  The module-root file
wiring the validators of `src/build_config/` together is not part of the
source tree; the five phase validators themselves are embedded from the
source above.  Overrides and custom build rules are optional in the data
model and are skipped when absent. -/
def BuildConfig.verify_config (cfg : BuildConfig) (p : Probes)
    (setOrder : List (Spanned String) → List (Spanned String)) :
    Option (BResult BuildConfig) :=
  match cfg.build.check_compiler_details p with
  | .error e => some (.err e)
  | .ok _ =>
    match cfg.dependencies.check_dependencies p.pkgExists with
    | .error e => some (.err e)
    | .ok _ =>
      match SubProject.verify_subprojects cfg.subprojects cfg.dependencies with
      | none => none
      | some (.err e) => some (.err e)
      | some (.panic m) => some (.panic m)
      | some (.ok build_order) =>
        match (match cfg.overrides with
               | some overrides =>
                 Override.verify_overrides overrides build_order setOrder
               | none => .ok ()) with
        | .error e => some (.err e)
        | .ok _ =>
          match (match cfg.custom_build_rules with
                 | some rules => CustomBuildRule.verify_custom_build_rules rules
                 | none => .ok ()) with
          | .error e => some (.err e)
          | .ok _ => some (.ok { cfg with subprojects := build_order })

/-- Verdict of a `verify_config` run, forgetting the identity of the
error value: success with the validated configuration, failure, a panic,
or fuel exhaustion of the embedding. -/
inductive RunVerdict where
  | success (cfg : BuildConfig)
  | failure
  | crashed (msg : String)
  | fuelOut
deriving DecidableEq, Repr

/-- Project a run result to its verdict. -/
def verdictOf : Option (BResult BuildConfig) → RunVerdict
  | none => .fuelOut
  | some (.ok cfg) => .success cfg
  | some (.err _) => .failure
  | some (.panic m) => .crashed m

/-! Concrete configurations used by the scenario claims. -/

/-- Empty dependency collections. -/
def emptyDeps : Dependencies := { remote := [], pkg_config := [], manual := [] }

/-- Scenario subproject: `core`, a library with no dependencies. -/
def coreSP : SubProject :=
  { name := { value := "core", span := { lo := 10, hi := 14 } },
    type := .Library, src_dir := none, include_dirs := none,
    dependencies := none }

/-- Scenario subproject: `engine`, a library depending on `core`. -/
def engineSP : SubProject :=
  { name := { value := "engine", span := { lo := 20, hi := 26 } },
    type := .Library, src_dir := none, include_dirs := none,
    dependencies := some [{ value := .named ("core"),
                            span := { lo := 30, hi := 36 } }] }

/-- Scenario subproject: `game`, a binary depending on `engine`. -/
def gameSP : SubProject :=
  { name := { value := "game", span := { lo := 40, hi := 44 } },
    type := .Binary, src_dir := none, include_dirs := none,
    dependencies := some [{ value := .named ("engine"),
                            span := { lo := 50, hi := 58 } }] }

/-- Two binary subprojects `a` and `b` depending on each other (the
cycle scenario with non-linkable kinds). -/
def aBin : SubProject :=
  { name := { value := "a", span := { lo := 0, hi := 1 } },
    type := .Binary, src_dir := none, include_dirs := none,
    dependencies := some [{ value := .named ("b"),
                            span := { lo := 2, hi := 3 } }] }

/-- See `aBin`. -/
def bBin : SubProject :=
  { name := { value := "b", span := { lo := 4, hi := 5 } },
    type := .Binary, src_dir := none, include_dirs := none,
    dependencies := some [{ value := .named ("a"),
                            span := { lo := 6, hi := 7 } }] }

/-- Two library subprojects `a` and `b` depending on each other (the
cycle scenario with resolvable references). -/
def aLib : SubProject :=
  { name := { value := "a", span := { lo := 0, hi := 1 } },
    type := .Library, src_dir := none, include_dirs := none,
    dependencies := some [{ value := .named ("b"),
                            span := { lo := 2, hi := 3 } }] }

/-- See `aLib`. -/
def bLib : SubProject :=
  { name := { value := "b", span := { lo := 4, hi := 5 } },
    type := .Library, src_dir := none, include_dirs := none,
    dependencies := some [{ value := .named ("a"),
                            span := { lo := 6, hi := 7 } }] }

/-- A library subproject `mylib` with no dependencies. -/
def mylibSP : SubProject :=
  { name := { value := "mylib", span := { lo := 0, hi := 5 } },
    type := .Library, src_dir := none, include_dirs := none,
    dependencies := none }

/-- A binary subproject whose single reference is a Detailed reference to
the library subproject `mylib` (not a declared dependency): this drives
`check_subproject_dependencies` into its `unreachable!` arm. -/
def appDetailSP : SubProject :=
  { name := { value := "app", span := { lo := 10, hi := 13 } },
    type := .Binary, src_dir := none, include_dirs := none,
    dependencies := some [{ value := .detailed ("mylib") none,
                            span := { lo := 20, hi := 29 } }] }

/-- A remote dependency `zlib` with no version and no build method. -/
def zlibRemote : Spanned RemoteDependency :=
  { value := { name := { value := "zlib", span := { lo := 1, hi := 5 } },
               version := none,
               source := { value := "https://zlib.example/z.git",
                           span := { lo := 10, hi := 20 } },
               include_name := none, include_dirs := [],
               build_method := none, build_command := none,
               build_output := none, imports := none },
    span := { lo := 0, hi := 30 } }

/-- Dependency collections declaring just the remote `zlib`. -/
def zlibDeps : Dependencies :=
  { remote := [zlibRemote], pkg_config := [], manual := [] }

/-- A binary subproject with a Detailed reference to the declared remote
dependency `zlib` followed by a bare reference to the undeclared name
`ghost`: the early `return Ok` of the Detailed arm skips the scan of
`ghost`. -/
def appSkipSP : SubProject :=
  { name := { value := "app", span := { lo := 40, hi := 43 } },
    type := .Binary, src_dir := none, include_dirs := none,
    dependencies := some [{ value := .detailed ("zlib") none,
                            span := { lo := 50, hi := 59 } },
                          { value := .named ("ghost"),
                            span := { lo := 60, hi := 67 } }] }

/-- Second declaration of the remote `zlib`: identical name, source and
absent version, later spans. -/
def zlibRemote2 : Spanned RemoteDependency :=
  { value := { name := { value := "zlib", span := { lo := 41, hi := 45 } },
               version := none,
               source := { value := "https://zlib.example/z.git",
                           span := { lo := 50, hi := 60 } },
               include_name := none, include_dirs := [],
               build_method := none, build_command := none,
               build_output := none, imports := none },
    span := { lo := 40, hi := 70 } }

/-- The remote `zlib` declared twice with the same source and no version. -/
def zlibTwiceDeps : Dependencies :=
  { remote := [zlibRemote, zlibRemote2], pkg_config := [], manual := [] }

/-- A remote dependency with no declared build method but with a build
command and a build output present. -/
def noMethodRemote : Spanned RemoteDependency :=
  { value := { name := { value := "libfoo", span := { lo := 1, hi := 7 } },
               version := none,
               source := { value := "https://foo.example/foo.git",
                           span := { lo := 10, hi := 20 } },
               include_name := none, include_dirs := [],
               build_method := none,
               build_command := some { value := "make",
                                       span := { lo := 30, hi := 34 } },
               build_output := some { value := "libfoo.a",
                                      span := { lo := 40, hi := 48 } },
               imports := none },
    span := { lo := 0, hi := 50 } }

/-- A remote dependency with build method custom and no build command. -/
def customMissingRemote : Spanned RemoteDependency :=
  { value := { name := { value := "libbar", span := { lo := 1, hi := 7 } },
               version := none,
               source := { value := "https://bar.example/bar.git",
                           span := { lo := 10, hi := 20 } },
               include_name := none, include_dirs := [],
               build_method := some .Custom,
               build_command := none, build_output := none,
               imports := none },
    span := { lo := 0, hi := 50 } }

/-- Duplicate-named subprojects of different kinds (used to show what
`check_circular_dependencies_and_get_build_order` does without the
duplicate-name precondition). -/
def dupA1 : SubProject :=
  { name := { value := "a", span := { lo := 0, hi := 1 } },
    type := .Binary, src_dir := none, include_dirs := none,
    dependencies := none }

/-- See `dupA1`. -/
def dupA2 : SubProject :=
  { name := { value := "a", span := { lo := 5, hi := 6 } },
    type := .Library, src_dir := none, include_dirs := none,
    dependencies := none }

/-- Build settings used by the concrete configurations. -/
def gccSettings : BuildSettings :=
  { version := "0.1.0",
    c_standard := { value := "c11", span := { lo := 100, hi := 103 } },
    compiler := { value := "gcc", span := { lo := 110, hi := 113 } },
    global_cflags := none, debug_flags := none, release_flags := none,
    parallel_jobs := none }

/-- Probe outcomes where the compiler resolves, the standard probe
passes and every pkg-config query exists. -/
def allOkProbes : Probes :=
  { whichCompiler := fun _ => some ("/usr/bin/gcc"),
    stdSupported := fun _ _ => true,
    pkgExists := fun _ => true }

/-- Probe outcomes differing from `allOkProbes` only on pkg-config
queries other than `"gtk"` and on compilers other than `"gcc"` (used to
witness that agreement on the consulted probes suffices). -/
def otherProbes : Probes :=
  { whichCompiler := fun c => if c = "gcc" then some ("/usr/bin/gcc") else none,
    stdSupported := fun _ _ => true,
    pkgExists := fun q => q = "gtk" }

/-- A pkg-config dependency on query `gtk`. -/
def gtkPkgDep : Spanned PkgConfigDependency :=
  { value := { name := { value := "gtk", span := { lo := 200, hi := 203 } },
               pkg_config_query := { value := "gtk",
                                     span := { lo := 210, hi := 213 } } },
    span := { lo := 200, hi := 220 } }

/-- A configuration with one pkg-config dependency and the three scenario
subprojects (used to witness determinism). -/
def detCfg : BuildConfig :=
  { build := gccSettings,
    dependencies := { remote := [], pkg_config := [gtkPkgDep], manual := [] },
    subprojects := [coreSP, engineSP, gameSP],
    custom_build_rules := none,
    overrides := some [{ name := { value := "core",
                                   span := { lo := 300, hi := 304 } },
                         c_standard := none, compiler := none, cflags := none,
                         debug_flags := none, release_flags := none,
                         parallel_jobs := none }] }

/-- A configuration whose compiler and dependency checks pass (used to
show `verify_config` in `src/build_config.rs` then panics). -/
def plainCfg : BuildConfig :=
  { build := gccSettings,
    dependencies := emptyDeps,
    subprojects := [coreSP, engineSP, gameSP],
    custom_build_rules := none,
    overrides := none }

/-! Invariants used by the depth-first-search lemmas. -/

/-- DFS soundness invariant: every visited node not on the recursion
stack is safe. -/
def Pinv (g : List (String × List String)) (visited stack : List String) : Prop :=
  ∀ x ∈ visited, x ∉ stack → SafeG g x

/-- Path/stack coupling of `dfs_cycle_detection`: stack and path hold the
same nodes and the path is an edge chain. -/
def stackPathInv (g : List (String × List String))
    (stack path : List String) : Prop :=
  (∀ x, x ∈ stack ↔ x ∈ path) ∧ List.Chain' (edgeG g) path

/-- The current DFS target extends the path by an edge (vacuous for the
empty path). -/
def lastEdge (g : List (String × List String)) (path : List String)
    (u : String) : Prop :=
  ∀ x ∈ path.getLast?, edgeG g x u

/-- Statement of the success post-condition of `dfs_cycle_detection` at a
given fuel, quantified so it can be proven by induction on the fuel. -/
def D1Prop (g : List (String × List String)) (fuel : Nat) : Prop :=
  ∀ u visited stack path v',
    SubProject.dfs_cycle_detection g fuel u visited stack path =
      some (.ok v') →
    Pinv g visited stack →
    Pinv g v' stack ∧ (∀ x ∈ visited, x ∈ v') ∧ u ∈ v' ∧ u ∉ stack

/-- Statement of the failure post-condition of `dfs_cycle_detection` at a
given fuel: the reported message joins a path that contains a directed
cycle of the graph. -/
def E1Prop (g : List (String × List String)) (fuel : Nat) : Prop :=
  ∀ u visited stack path m,
    SubProject.dfs_cycle_detection g fuel u visited stack path =
      some (.error m) →
    stackPathInv g stack path →
    lastEdge g path u →
    ∃ p, m = String.intercalate (" -> ") p ∧
      ∃ c, IsCycleList g c ∧ ∀ x ∈ c, x ∈ p

/-- Bookkeeping invariant of `dfs_topological_sort`: `grays` is the chain
of ancestors currently being expanded; the visited set is exactly the
grays plus the emitted order, without duplication. -/
def InvT (grays visited order : List String) : Prop :=
  (∀ x, x ∈ visited ↔ x ∈ grays ∨ x ∈ order) ∧ (grays ++ order).Nodup

/-- Statement of the post-condition of `dfs_topological_sort` at a given
fuel. -/
def B1Prop (g : List (String × List String)) (fuel : Nat) : Prop :=
  ∀ u visited order grays v' o',
    SubProject.dfs_topological_sort g fuel u visited order = some (v', o') →
    InvT grays visited order →
    InvT grays v' o' ∧ (∀ x ∈ order, x ∈ o') ∧
      (∀ x ∈ visited, x ∈ v') ∧ u ∈ v'

/-! Lemmas about the draining iterator of `Dependencies`. -/

theorem getLast?_some_ne_nil {α : Type} (l : List α) (a : α)
    (h : l.getLast? = some a) : l ≠ [] := by
  intro hnil
  rw [hnil] at h
  simp at h

theorem next_totalLen (d : Dependencies) (x : Dependency) (d' : Dependencies)
    (h : d.next = some (x, d')) : d'.totalLen + 1 = d.totalLen := by
  unfold Dependencies.next at h
  rcases hr : d.remote.getLast? with _ | r
  · rcases hp : d.pkg_config.getLast? with _ | p
    · rcases hm : d.manual.getLast? with _ | m
      · simp [hr, hp, hm] at h
      · simp only [hr, hp, hm, Option.some.injEq, Prod.mk.injEq] at h
        have hne := getLast?_some_ne_nil d.manual m hm
        have hpos : 0 < d.manual.length := List.length_pos.mpr hne
        have hd' : d' = { d with manual := d.manual.dropLast } := h.2.symm
        rw [hd']
        simp [Dependencies.totalLen, List.length_dropLast]
        omega
    · simp only [hr, hp, Option.some.injEq, Prod.mk.injEq] at h
      have hne := getLast?_some_ne_nil d.pkg_config p hp
      have hpos : 0 < d.pkg_config.length := List.length_pos.mpr hne
      have hd' : d' = { d with pkg_config := d.pkg_config.dropLast } := h.2.symm
      rw [hd']
      simp [Dependencies.totalLen, List.length_dropLast]
      omega
  · simp only [hr, Option.some.injEq, Prod.mk.injEq] at h
    have hne := getLast?_some_ne_nil d.remote r hr
    have hpos : 0 < d.remote.length := List.length_pos.mpr hne
    have hd' : d' = { d with remote := d.remote.dropLast } := h.2.symm
    rw [hd']
    simp [Dependencies.totalLen, List.length_dropLast]
    omega

theorem drainFuel_exact :
    ∀ (n : Nat) (d : Dependencies), d.totalLen = n →
      Dependencies.drainFuel n d =
        d.remote.reverse.map Dependency.remote ++
          d.pkg_config.reverse.map Dependency.pkgConfig ++
          d.manual.reverse.map Dependency.manual := by
  intro n
  induction n with
  | zero =>
    intro d hlen
    unfold Dependencies.totalLen at hlen
    have hr : d.remote = [] := List.eq_nil_of_length_eq_zero (by omega)
    have hp : d.pkg_config = [] := List.eq_nil_of_length_eq_zero (by omega)
    have hm : d.manual = [] := List.eq_nil_of_length_eq_zero (by omega)
    simp [Dependencies.drainFuel, hr, hp, hm]
  | succ n ih =>
    intro d hlen
    rcases List.eq_nil_or_concat d.remote with hr | ⟨rs, r, hr⟩
    · rcases List.eq_nil_or_concat d.pkg_config with hp | ⟨ps, p, hp⟩
      · rcases List.eq_nil_or_concat d.manual with hm | ⟨ms, m, hm⟩
        · exfalso
          unfold Dependencies.totalLen at hlen
          rw [hr, hp, hm] at hlen
          simp at hlen
        · rw [List.concat_eq_append] at hm
          have hnext : d.next =
              some (Dependency.manual m, { d with manual := ms }) := by
            unfold Dependencies.next
            rw [hr, hp, hm]
            simp [List.getLast?_concat, List.dropLast_concat]
          have hlen' : ({ d with manual := ms } : Dependencies).totalLen = n := by
            have := next_totalLen d _ _ hnext
            omega
          unfold Dependencies.drainFuel
          rw [hnext]
          dsimp only
          rw [ih _ hlen']
          simp [hr, hp, hm]
      · rw [List.concat_eq_append] at hp
        have hnext : d.next =
            some (Dependency.pkgConfig p, { d with pkg_config := ps }) := by
          unfold Dependencies.next
          rw [hr, hp]
          simp [List.getLast?_concat, List.dropLast_concat]
        have hlen' : ({ d with pkg_config := ps } : Dependencies).totalLen = n := by
          have := next_totalLen d _ _ hnext
          omega
        unfold Dependencies.drainFuel
        rw [hnext]
        dsimp only
        rw [ih _ hlen']
        simp [hr, hp]
    · rw [List.concat_eq_append] at hr
      have hnext : d.next =
          some (Dependency.remote r, { d with remote := rs }) := by
        unfold Dependencies.next
        rw [hr]
        simp [List.getLast?_concat, List.dropLast_concat]
      have hlen' : ({ d with remote := rs } : Dependencies).totalLen = n := by
        have := next_totalLen d _ _ hnext
        omega
      unfold Dependencies.drainFuel
      rw [hnext]
      dsimp only
      rw [ih _ hlen']
      simp [hr]

theorem drain_eq (d : Dependencies) :
    d.drain = d.remote.reverse.map Dependency.remote ++
      d.pkg_config.reverse.map Dependency.pkgConfig ++
      d.manual.reverse.map Dependency.manual :=
  drainFuel_exact d.totalLen d rfl

/-! Lemmas about the build-method field checks of `check_dependencies`. -/

theorem remoteBuildCheck_ok_iff (r : Spanned RemoteDependency) :
    remoteBuildCheck r = .ok () ↔
      ((r.value.build_method = some RemoteBuildMethod.Custom →
          r.value.build_command ≠ none) ∧
        (∀ m, r.value.build_method = some m → m ≠ RemoteBuildMethod.Custom →
          r.value.build_output = none ∧ r.value.build_command = none)) := by
  rcases hbm : r.value.build_method with _ | m
  · simp [remoteBuildCheck, hbm]
  · by_cases hcu : m = RemoteBuildMethod.Custom
    · subst hcu
      rcases hbc : r.value.build_command with _ | bc
      · simp [remoteBuildCheck, hbm, hbc]
      · simp [remoteBuildCheck, hbm, hbc]
    · rcases hbo : r.value.build_output with _ | bo
      · rcases hbc : r.value.build_command with _ | bc
        · simp [remoteBuildCheck, hbm, hbo, hbc, hcu]
        · simp [remoteBuildCheck, hbm, hbo, hbc, hcu]
      · simp [remoteBuildCheck, hbm, hbo, hcu]

theorem cdGo_ok_remote (pkgOk : String → Bool) :
    ∀ (l : List Dependency) (urlSet : List RemoteInfo)
      (nameSet inclSet : List (Spanned String)),
      cdGo pkgOk l urlSet nameSet inclSet = .ok () →
      ∀ r, Dependency.remote r ∈ l → remoteBuildCheck r = .ok () := by
  intro l
  induction l with
  | nil => intro _ _ _ _ r hmem; simp at hmem
  | cons dep rest ih =>
    intro urlSet nameSet inclSet h r hmem
    rcases List.mem_cons.mp hmem with heq | hmem'
    · subst heq
      unfold cdGo at h
      dsimp only at h
      rcases hri : findRI urlSet
          { url := r.value.source, version := r.value.version } with _ | prev
      · simp only [hri] at h
        rcases hsp : findSp nameSet r.value.name.value with _ | prev
        · simp only [hsp] at h
          rcases hin : r.value.include_name with _ | incl
          · simp only [hin] at h
            rcases hbc : remoteBuildCheck r with e | u
            · simp only [hbc] at h; simp at h
            · cases u; rfl
          · simp only [hin] at h
            rcases hsp2 : findSp inclSet incl.value with _ | prev2
            · simp only [hsp2] at h
              rcases hbc : remoteBuildCheck r with e | u
              · simp only [hbc] at h; simp at h
              · cases u; rfl
            · simp only [hsp2] at h; simp at h
        · simp only [hsp] at h; simp at h
      · simp only [hri] at h; simp at h
    · unfold cdGo at h
      rcases dep with rd | pd | md
      all_goals dsimp only at h
      · rcases hri : findRI urlSet
            { url := rd.value.source, version := rd.value.version } with _ | prev
        · simp only [hri] at h
          rcases hsp : findSp nameSet rd.value.name.value with _ | prev
          · simp only [hsp] at h
            rcases hin : rd.value.include_name with _ | incl
            · simp only [hin] at h
              rcases hbc : remoteBuildCheck rd with e | u
              · simp only [hbc] at h; simp at h
              · simp only [hbc] at h
                exact ih _ _ _ h r hmem'
            · simp only [hin] at h
              rcases hsp2 : findSp inclSet incl.value with _ | prev2
              · simp only [hsp2] at h
                rcases hbc : remoteBuildCheck rd with e | u
                · simp only [hbc] at h; simp at h
                · simp only [hbc] at h
                  exact ih _ _ _ h r hmem'
              · simp only [hsp2] at h; simp at h
          · simp only [hsp] at h; simp at h
        · simp only [hri] at h; simp at h
      · rcases hsp : findSp nameSet pd.value.name.value with _ | prev
        · simp only [hsp] at h
          by_cases hq : pkgOk pd.value.pkg_config_query.value
          · rw [if_pos hq] at h
            exact ih _ _ _ h r hmem'
          · rw [if_neg hq] at h; simp at h
        · simp only [hsp] at h; simp at h
      · rcases hsp : findSp nameSet md.value.name.value with _ | prev
        · simp only [hsp] at h
          exact ih _ _ _ h r hmem'
        · simp only [hsp] at h; simp at h

theorem checkDeps_singleton (r : Spanned RemoteDependency)
    (pkgOk : String → Bool) :
    Dependencies.check_dependencies
        { remote := [r], pkg_config := [], manual := [] } pkgOk =
      match remoteBuildCheck r with
      | .error e => .error e
      | .ok _ => .ok () := by
  unfold Dependencies.check_dependencies
  rw [drain_eq]
  simp only [List.reverse_cons, List.reverse_nil, List.nil_append,
    List.map_cons, List.map_nil, List.append_nil]
  unfold cdGo
  dsimp only
  rcases hin : r.value.include_name with _ | incl
  · rcases hbc : remoteBuildCheck r with e | u
    · simp [findRI, findSp, hin, hbc]
    · simp [findRI, findSp, hin, hbc, cdGo]
  · rcases hbc : remoteBuildCheck r with e | u
    · simp [findRI, findSp, hin, hbc]
    · simp [findRI, findSp, hin, hbc, cdGo]

/-! Span-presence lemmas: every constructed error has a primary span. -/

theorem cdGo_err_span (pkgOk : String → Bool) :
    ∀ (l : List Dependency) (urlSet : List RemoteInfo)
      (nameSet inclSet : List (Spanned String)) (e : Error),
      cdGo pkgOk l urlSet nameSet inclSet = .error e → e.span.isSome := by
  intro l
  induction l with
  | nil => intro _ _ _ e h; simp [cdGo] at h
  | cons dep rest ih =>
    intro urlSet nameSet inclSet e h
    unfold cdGo at h
    rcases dep with rd | pd | md
    all_goals dsimp only at h
    · rcases hri : findRI urlSet
          { url := rd.value.source, version := rd.value.version } with _ | prev
      · simp only [hri] at h
        rcases hsp : findSp nameSet rd.value.name.value with _ | prev
        · simp only [hsp] at h
          rcases hin : rd.value.include_name with _ | incl
          · simp only [hin] at h
            rcases hbc : remoteBuildCheck rd with e' | u
            · simp only [hbc] at h
              have he : e = e' := by simpa using h.symm
              subst he
              rcases hbm : rd.value.build_method with _ | m
              · simp [remoteBuildCheck, hbm] at hbc
              · by_cases hcu : m = RemoteBuildMethod.Custom
                · subst hcu
                  rcases hc2 : rd.value.build_command with _ | bc
                  · simp [remoteBuildCheck, hbm, hc2] at hbc
                    rw [← hbc]; rfl
                  · simp [remoteBuildCheck, hbm, hc2] at hbc
                · rcases ho2 : rd.value.build_output with _ | bo
                  · rcases hc2 : rd.value.build_command with _ | bc
                    · simp [remoteBuildCheck, hbm, ho2, hc2, hcu] at hbc
                    · simp [remoteBuildCheck, hbm, ho2, hc2, hcu] at hbc
                      rw [← hbc]; rfl
                  · simp [remoteBuildCheck, hbm, ho2, hcu] at hbc
                    rw [← hbc]; rfl
            · simp only [hbc] at h
              exact ih _ _ _ e h
          · simp only [hin] at h
            rcases hsp2 : findSp inclSet incl.value with _ | prev2
            · simp only [hsp2] at h
              rcases hbc : remoteBuildCheck rd with e' | u
              · simp only [hbc] at h
                have he : e = e' := by simpa using h.symm
                subst he
                rcases hbm : rd.value.build_method with _ | m
                · simp [remoteBuildCheck, hbm] at hbc
                · by_cases hcu : m = RemoteBuildMethod.Custom
                  · subst hcu
                    rcases hc2 : rd.value.build_command with _ | bc
                    · simp [remoteBuildCheck, hbm, hc2] at hbc
                      rw [← hbc]; rfl
                    · simp [remoteBuildCheck, hbm, hc2] at hbc
                  · rcases ho2 : rd.value.build_output with _ | bo
                    · rcases hc2 : rd.value.build_command with _ | bc
                      · simp [remoteBuildCheck, hbm, ho2, hc2, hcu] at hbc
                      · simp [remoteBuildCheck, hbm, ho2, hc2, hcu] at hbc
                        rw [← hbc]; rfl
                    · simp [remoteBuildCheck, hbm, ho2, hcu] at hbc
                      rw [← hbc]; rfl
              · simp only [hbc] at h
                exact ih _ _ _ e h
            · simp only [hsp2] at h
              injection h with h2
              subst h2
              rfl
        · simp only [hsp] at h
          injection h with h2
          subst h2
          rfl
      · simp only [hri] at h
        injection h with h2
        subst h2
        rfl
    · rcases hsp : findSp nameSet pd.value.name.value with _ | prev
      · simp only [hsp] at h
        by_cases hq : pkgOk pd.value.pkg_config_query.value
        · rw [if_pos hq] at h
          exact ih _ _ _ e h
        · rw [if_neg hq] at h
          injection h with h2
          subst h2
          rfl
      · simp only [hsp] at h
        injection h with h2
        subst h2
        rfl
    · rcases hsp : findSp nameSet md.value.name.value with _ | prev
      · simp only [hsp] at h
        exact ih _ _ _ e h
      · simp only [hsp] at h
        injection h with h2
        subst h2
        rfl

theorem check_dependencies_err_span (d : Dependencies)
    (pkgOk : String → Bool) (e : Error)
    (h : d.check_dependencies pkgOk = .error e) : e.span.isSome :=
  cdGo_err_span pkgOk d.drain [] [] [] e h

theorem check_compiler_details_err_span (bs : BuildSettings) (p : Probes)
    (e : Error) (h : bs.check_compiler_details p = .error e) :
    e.span.isSome := by
  unfold BuildSettings.check_compiler_details at h
  rcases hw : p.whichCompiler bs.compiler.value with _ | path
  · simp only [hw] at h
    injection h with h2
    subst h2
    rfl
  · simp only [hw] at h
    by_cases hs : p.stdSupported path bs.c_standard.value
    · rw [if_pos hs] at h; simp at h
    · rw [if_neg hs] at h
      injection h with h2
      subst h2
      rfl

theorem cdnGo_err_span :
    ∀ (selfs : List SubProject) (nameSet : List (Spanned String))
      (libSet : List String) (e : Error),
      cdnGo selfs nameSet libSet = .error e → e.span.isSome := by
  intro selfs
  induction selfs with
  | nil => intro _ _ e h; simp [cdnGo] at h
  | cons sp rest ih =>
    intro nameSet libSet e h
    unfold cdnGo at h
    rcases hsp : findSp nameSet sp.name.value with _ | prev
    · simp only [hsp] at h
      by_cases hty : sp.type = SubProjectType.Library ∨
          sp.type = SubProjectType.HeaderOnly
      · rw [if_pos hty] at h
        exact ih _ _ e h
      · rw [if_neg hty] at h
        exact ih _ _ e h
    · simp only [hsp] at h
      injection h with h2
      subst h2
      rfl

theorem scanRefs_err_span (dependencies : Dependencies)
    (lib_set : List String) :
    ∀ (refs : List (Spanned SubProjectDependency)) (e : Error),
      scanRefs dependencies lib_set refs = some (.err e) → e.span.isSome := by
  intro refs
  induction refs with
  | nil => intro e h; simp [scanRefs] at h
  | cons dep rest ih =>
    intro e h
    unfold scanRefs at h
    rcases hval : dep.value with name | ⟨name, imports⟩
    · simp only [hval] at h
      by_cases hc : ¬ dependencies.has_dependency name ∧ name ∉ lib_set
      · rw [if_pos hc] at h
        injection h with h2
        injection h2 with h3
        subst h3
        rfl
      · rw [if_neg hc] at h
        exact ih e h
    · simp only [hval] at h
      by_cases hd : dependencies.has_dependency name
      · simp only [hd, if_true, ite_true] at h
        simp at h
      · simp only [hd] at h
        rw [if_neg (by simp [hd])] at h
        by_cases hl : name ∉ lib_set
        · rw [if_pos hl] at h
          injection h with h2
          injection h2 with h3
          subst h3
          rfl
        · rw [if_neg hl] at h
          simp at h

theorem check_subproject_dependencies_err_span
    (dependencies : Dependencies) (lib_set : List String) :
    ∀ (selfs : List SubProject) (e : Error),
      SubProject.check_subproject_dependencies selfs dependencies lib_set =
        .err e → e.span.isSome := by
  intro selfs
  induction selfs with
  | nil =>
    intro e h
    simp [SubProject.check_subproject_dependencies] at h
  | cons sp rest ih =>
    intro e h
    unfold SubProject.check_subproject_dependencies at h
    rcases hscan : scanRefs dependencies lib_set
        (sp.dependencies.getD []) with _ | r
    · simp only [hscan] at h
      exact ih e h
    · simp only [hscan] at h
      rcases r with u | e' | m
      · simp at h
      · have he : e = e' := by simpa using h.symm
        subst he
        exact scanRefs_err_span dependencies lib_set _ e hscan
      · simp at h

theorem ovLoop1_err_span :
    ∀ (selfs : List Override) (nameSet : List (Spanned String)) (e : Error),
      ovLoop1 selfs nameSet = .error e → e.span.isSome := by
  intro selfs
  induction selfs with
  | nil => intro _ e h; simp [ovLoop1] at h
  | cons ov rest ih =>
    intro nameSet e h
    unfold ovLoop1 at h
    rcases hsp : findSp nameSet ov.name.value with _ | prev
    · simp only [hsp] at h
      exact ih _ e h
    · simp only [hsp] at h
      injection h with h2
      subst h2
      rfl

theorem ovLoop2_err_span (sub_projects : List SubProject) :
    ∀ (names : List (Spanned String)) (e : Error),
      ovLoop2 sub_projects names = .error e → e.span.isSome := by
  intro names
  induction names with
  | nil => intro e h; simp [ovLoop2] at h
  | cons n rest ih =>
    intro e h
    unfold ovLoop2 at h
    by_cases hm : sub_projects.any (fun sub => decide (sub.name.value = n.value))
    · rw [if_pos hm] at h
      exact ih e h
    · rw [if_neg hm] at h
      injection h with h2
      subst h2
      rfl

theorem verify_overrides_err_span (selfs : List Override)
    (sub_projects : List SubProject)
    (setOrder : List (Spanned String) → List (Spanned String)) (e : Error)
    (h : Override.verify_overrides selfs sub_projects setOrder = .error e) :
    e.span.isSome := by
  unfold Override.verify_overrides at h
  rcases h1 : ovLoop1 selfs [] with e' | names
  · rw [h1] at h
    have he : e = e' := by simpa using h.symm
    subst he
    exact ovLoop1_err_span selfs [] e h1
  · rw [h1] at h
    exact ovLoop2_err_span sub_projects (setOrder names) e h

theorem cbrGo_err_span :
    ∀ (selfs : List CustomBuildRule) (nameSet : List (Spanned String))
      (e : Error), cbrGo selfs nameSet = .error e → e.span.isSome := by
  intro selfs
  induction selfs with
  | nil => intro _ e h; simp [cbrGo] at h
  | cons cbr rest ih =>
    intro nameSet e h
    unfold cbrGo at h
    rcases hsp : findSp nameSet cbr.name.value with _ | prev
    · simp only [hsp] at h
      exact ih _ e h
    · simp only [hsp] at h
      injection h with h2
      subst h2
      rfl

/-! Congruence lemmas: the validators consult the probe oracles only at
the declared queries, and the override set-iteration order only selects
which failing name is reported, never whether validation fails. -/

theorem check_compiler_congr (bs : BuildSettings) (p₁ p₂ : Probes)
    (hw : p₁.whichCompiler bs.compiler.value =
      p₂.whichCompiler bs.compiler.value)
    (hs : ∀ path, p₁.stdSupported path bs.c_standard.value =
      p₂.stdSupported path bs.c_standard.value) :
    bs.check_compiler_details p₁ = bs.check_compiler_details p₂ := by
  unfold BuildSettings.check_compiler_details
  rw [hw]
  rcases hw2 : p₂.whichCompiler bs.compiler.value with _ | path
  · rfl
  · dsimp only
    rw [hs path]

theorem cdGo_congr (pk₁ pk₂ : String → Bool) :
    ∀ (l : List Dependency) (urlSet : List RemoteInfo)
      (nameSet inclSet : List (Spanned String)),
      (∀ pd, Dependency.pkgConfig pd ∈ l →
        pk₁ pd.value.pkg_config_query.value =
          pk₂ pd.value.pkg_config_query.value) →
      cdGo pk₁ l urlSet nameSet inclSet = cdGo pk₂ l urlSet nameSet inclSet := by
  intro l
  induction l with
  | nil => intro _ _ _ _; rfl
  | cons dep rest ih =>
    intro urlSet nameSet inclSet hq
    have hq' : ∀ pd, Dependency.pkgConfig pd ∈ rest →
        pk₁ pd.value.pkg_config_query.value =
          pk₂ pd.value.pkg_config_query.value :=
      fun pd hm => hq pd (List.mem_cons_of_mem dep hm)
    unfold cdGo
    rcases dep with rd | pd | md
    all_goals dsimp only
    · rcases hri : findRI urlSet
          { url := rd.value.source, version := rd.value.version } with _ | prev
      · simp only [hri]
        rcases hsp : findSp nameSet rd.value.name.value with _ | prev
        · simp only [hsp]
          rcases hin : rd.value.include_name with _ | incl
          · simp only [hin]
            rcases hbc : remoteBuildCheck rd with e | u
            · simp only [hbc]
            · simp only [hbc]
              exact ih _ _ _ hq'
          · simp only [hin]
            rcases hsp2 : findSp inclSet incl.value with _ | prev2
            · simp only [hsp2]
              rcases hbc : remoteBuildCheck rd with e | u
              · simp only [hbc]
              · simp only [hbc]
                exact ih _ _ _ hq'
            · simp only [hsp2]
        · simp only [hsp]
      · simp only [hri]
    · rcases hsp : findSp nameSet pd.value.name.value with _ | prev
      · simp only [hsp]
        rw [hq pd (List.mem_cons_self _ _)]
        by_cases hq2 : pk₂ pd.value.pkg_config_query.value
        · rw [if_pos hq2, if_pos hq2]
          exact ih _ _ _ hq'
        · rw [if_neg hq2, if_neg hq2]
      · simp only [hsp]
    · rcases hsp : findSp nameSet md.value.name.value with _ | prev
      · simp only [hsp]
        exact ih _ _ _ hq'
      · simp only [hsp]

theorem drain_pkg_mem (d : Dependencies) (pd : Spanned PkgConfigDependency)
    (h : Dependency.pkgConfig pd ∈ d.drain) : pd ∈ d.pkg_config := by
  rw [drain_eq] at h
  rcases List.mem_append.mp h with h1 | h3
  · rcases List.mem_append.mp h1 with h1a | h2
    · obtain ⟨r, _, habs⟩ := List.mem_map.mp h1a
      simp at habs
    · obtain ⟨p, hp, heq⟩ := List.mem_map.mp h2
      have : p = pd := by simpa using heq
      subst this
      exact List.mem_reverse.mp hp
  · obtain ⟨m, _, habs⟩ := List.mem_map.mp h3
    simp at habs

theorem check_dependencies_congr (d : Dependencies) (pk₁ pk₂ : String → Bool)
    (hq : ∀ q ∈ d.pkg_config.map
      (fun pc => pc.value.pkg_config_query.value), pk₁ q = pk₂ q) :
    d.check_dependencies pk₁ = d.check_dependencies pk₂ := by
  unfold Dependencies.check_dependencies
  apply cdGo_congr
  intro pd hm
  exact hq pd.value.pkg_config_query.value
    (List.mem_map.mpr ⟨pd, drain_pkg_mem d pd hm, rfl⟩)

theorem ovLoop2_ok_iff (sub_projects : List SubProject) :
    ∀ names : List (Spanned String),
      ovLoop2 sub_projects names = .ok () ↔
        ∀ n ∈ names, sub_projects.any
          (fun sub => decide (sub.name.value = n.value)) = true := by
  intro names
  induction names with
  | nil => simp [ovLoop2]
  | cons n rest ih =>
    unfold ovLoop2
    by_cases hm : sub_projects.any (fun sub => decide (sub.name.value = n.value))
    · rw [if_pos hm, ih]
      constructor
      · intro h
        exact List.forall_mem_cons.mpr ⟨hm, h⟩
      · intro h
        exact (List.forall_mem_cons.mp h).2
    · rw [if_neg hm]
      constructor
      · intro habs
        simp at habs
      · intro h
        exact absurd (List.forall_mem_cons.mp h).1 hm

theorem verify_overrides_ok_congr (selfs : List Override)
    (sub_projects : List SubProject)
    (π₁ π₂ : List (Spanned String) → List (Spanned String))
    (h₁ : ∀ l, (π₁ l).Perm l) (h₂ : ∀ l, (π₂ l).Perm l) :
    (Override.verify_overrides selfs sub_projects π₁ = .ok () ↔
      Override.verify_overrides selfs sub_projects π₂ = .ok ()) := by
  unfold Override.verify_overrides
  rcases h1 : ovLoop1 selfs [] with e | names
  · simp
  · rw [ovLoop2_ok_iff, ovLoop2_ok_iff]
    constructor
    · intro h n hn
      exact h n ((h₁ names).mem_iff.mpr ((h₂ names).mem_iff.mp hn))
    · intro h n hn
      exact h n ((h₂ names).mem_iff.mpr ((h₁ names).mem_iff.mp hn))

/-! Lemmas about the cycle-detection DFS. -/

theorem dfs_cycle_detection_succ (g : List (String × List String))
    (fuel : Nat) (u : String) (visited stack path : List String) :
    SubProject.dfs_cycle_detection g (fuel + 1) u visited stack path =
      if u ∈ stack then
        some (.error (String.intercalate (" -> ") (path ++ [u])))
      else if u ∈ visited then some (.ok visited)
      else
        List.foldl (dfsStep g fuel (u :: stack) (path ++ [u]))
          (some (.ok (u :: visited))) ((lookupG g u).getD []) := rfl

theorem dfsStep_foldl_none (g : List (String × List String)) (fuel : Nat)
    (stack path : List String) (ds : List String) :
    List.foldl (dfsStep g fuel stack path) none ds = none := by
  induction ds with
  | nil => rfl
  | cons d ds ih => simpa [dfsStep] using ih

theorem dfsStep_foldl_error (g : List (String × List String)) (fuel : Nat)
    (stack path : List String) (ds : List String) (e : String) :
    List.foldl (dfsStep g fuel stack path) (some (.error e)) ds =
      some (.error e) := by
  induction ds with
  | nil => rfl
  | cons d ds ih => simpa [dfsStep] using ih

theorem SafeG_of_successors (g : List (String × List String)) (u : String)
    (h : ∀ d, edgeG g u d → SafeG g d) : SafeG g u := by
  intro w hw hcyc
  rcases Relation.ReflTransGen.cases_head hw with heq | ⟨d, hud, hdw⟩
  · subst heq
    obtain ⟨d, hud, hdu⟩ := Relation.TransGen.head'_iff.mp hcyc
    exact h d hud u hdu hcyc
  · exact h d hud w hdw hcyc

theorem dfsList_ok (g : List (String × List String)) (fuel : Nat)
    (hD1 : D1Prop g fuel) (stack path : List String) :
    ∀ (ds : List String) (acc : Option (Except String (List String)))
      (v' : List String),
      List.foldl (dfsStep g fuel stack path) acc ds = some (.ok v') →
      ∃ v₀, acc = some (.ok v₀) ∧
        (Pinv g v₀ stack →
          Pinv g v' stack ∧ (∀ x ∈ v₀, x ∈ v') ∧
            ∀ d ∈ ds, d ∉ stack ∧ SafeG g d ∧ d ∈ v') := by
  intro ds
  induction ds with
  | nil =>
    intro acc v' h
    exact ⟨v', h, fun hP => ⟨hP, fun x hx => hx, by simp⟩⟩
  | cons d ds ih =>
    intro acc v' h
    rw [List.foldl_cons] at h
    obtain ⟨v₁, hstep, hrest⟩ := ih (dfsStep g fuel stack path acc d) v' h
    match acc with
    | none => simp [dfsStep] at hstep
    | some (.error e) => simp [dfsStep] at hstep
    | some (.ok v₀) =>
      refine ⟨v₀, rfl, fun hP => ?_⟩
      have hstep' : SubProject.dfs_cycle_detection g fuel d v₀ stack path =
          some (.ok v₁) := hstep
      obtain ⟨hPv₁, hsub₁, hdv₁, hds⟩ := hD1 d v₀ stack path v₁ hstep' hP
      obtain ⟨hPv', hsub₂, htl⟩ := hrest hPv₁
      refine ⟨hPv', fun x hx => hsub₂ x (hsub₁ x hx), ?_⟩
      intro x hx
      rcases List.mem_cons.mp hx with heq | hmem
      · subst heq
        exact ⟨hds, hPv₁ x hdv₁ hds, hsub₂ x hdv₁⟩
      · exact htl x hmem

theorem dfs_ok_sound (g : List (String × List String)) :
    ∀ fuel, D1Prop g fuel := by
  intro fuel
  induction fuel with
  | zero =>
    intro u visited stack path v' h
    simp [SubProject.dfs_cycle_detection] at h
  | succ fuel ih =>
    intro u visited stack path v' h hP
    rw [dfs_cycle_detection_succ] at h
    by_cases hstk : u ∈ stack
    · simp [hstk] at h
    · by_cases hvis : u ∈ visited
      · simp [hstk, hvis] at h
        subst h
        exact ⟨hP, fun x hx => hx, hvis, hstk⟩
      · simp only [hstk, hvis, if_false, ite_false] at h
        obtain ⟨v₀, hacc, hbody⟩ :=
          dfsList_ok g fuel ih (u :: stack) (path ++ [u])
            ((lookupG g u).getD []) (some (.ok (u :: visited))) v' h
        have hv₀ : v₀ = u :: visited := by
          simpa using hacc.symm
        subst hv₀
        have hPin : Pinv g (u :: visited) (u :: stack) := by
          intro x hx hxs
          rcases List.mem_cons.mp hx with heq | hmem
          · exact absurd (heq ▸ List.mem_cons_self u stack) hxs
          · exact hP x hmem (fun hc => hxs (List.mem_cons_of_mem u hc))
        obtain ⟨hPv', hsub, hdeps⟩ := hbody hPin
        have hSafeU : SafeG g u := by
          apply SafeG_of_successors
          intro d hd
          obtain ⟨ds, hlook, hdds⟩ := hd
          have : d ∈ (lookupG g u).getD [] := by rw [hlook]; exact hdds
          exact (hdeps d this).2.1
        have hu : u ∈ v' := hsub u (List.mem_cons_self u visited)
        refine ⟨?_, fun x hx => hsub x (List.mem_cons_of_mem u hx), hu, hstk⟩
        intro x hx hxs
        by_cases hxu : x = u
        · exact hxu ▸ hSafeU
        · exact hPv' x hx (by
            intro hc
            rcases List.mem_cons.mp hc with h1 | h2
            · exact hxu h1
            · exact hxs h2)

theorem dfsList_err (g : List (String × List String)) (fuel : Nat)
    (hE1 : E1Prop g fuel) (stack path : List String) :
    ∀ (ds : List String) (acc : Option (Except String (List String)))
      (m : String),
      List.foldl (dfsStep g fuel stack path) acc ds = some (.error m) →
      stackPathInv g stack path →
      (∀ d ∈ ds, lastEdge g path d) →
      acc = some (.error m) ∨
        ∃ p, m = String.intercalate (" -> ") p ∧
          ∃ c, IsCycleList g c ∧ ∀ x ∈ c, x ∈ p := by
  intro ds
  induction ds with
  | nil =>
    intro acc m h _ _
    exact Or.inl h
  | cons d ds ih =>
    intro acc m h hinv hle
    rw [List.foldl_cons] at h
    have hle' : ∀ x ∈ ds, lastEdge g path x :=
      fun x hx => hle x (List.mem_cons_of_mem d hx)
    rcases ih (dfsStep g fuel stack path acc d) m h hinv hle' with hstep | hfound
    · match acc with
      | none => simp [dfsStep] at hstep
      | some (.error e) =>
        simp [dfsStep] at hstep
        exact Or.inl (by rw [hstep])
      | some (.ok v₀) =>
        have hstep' : SubProject.dfs_cycle_detection g fuel d v₀ stack path =
            some (.error m) := hstep
        exact Or.inr (hE1 d v₀ stack path m hstep' hinv
          (hle d (List.mem_cons_self d ds)))
    · exact Or.inr hfound

theorem dfs_err_sound (g : List (String × List String)) :
    ∀ fuel, E1Prop g fuel := by
  intro fuel
  induction fuel with
  | zero =>
    intro u visited stack path m h
    simp [SubProject.dfs_cycle_detection] at h
  | succ fuel ih =>
    intro u visited stack path m h hinv hle
    rw [dfs_cycle_detection_succ] at h
    by_cases hstk : u ∈ stack
    · simp only [hstk, if_true, ite_true, Option.some.injEq] at h
      have hm : m = String.intercalate (" -> ") (path ++ [u]) := by
        cases h; rfl
      have hupath : u ∈ path := (hinv.1 u).mp hstk
      obtain ⟨α, β, hsplit⟩ := List.append_of_mem hupath
      refine ⟨path ++ [u], hm, u :: β, ⟨by simp, ?_, ?_⟩, ?_⟩
      · exact List.Chain'.suffix (hsplit ▸ hinv.2) ⟨α, rfl⟩
      · intro x hx y hy
        simp only [List.head?_cons, Option.mem_def, Option.some.injEq] at hy
        subst hy
        have hlast : path.getLast? = (u :: β).getLast? := by
          rw [hsplit]
          exact List.getLast?_append_of_ne_nil α (by simp)
        exact hle x (by rw [hlast]; exact hx)
      · intro x hx
        rcases List.mem_cons.mp hx with heq | hmem
        · simp [heq]
        · have : x ∈ path := by
            rw [hsplit]
            exact List.mem_append_right α (List.mem_cons_of_mem u hmem)
          exact List.mem_append_left [u] this
    · by_cases hvis : u ∈ visited
      · simp [hstk, hvis] at h
      · simp only [hstk, hvis, if_false, ite_false] at h
        have hinv' : stackPathInv g (u :: stack) (path ++ [u]) := by
          constructor
          · intro x
            constructor
            · intro hx
              rcases List.mem_cons.mp hx with heq | hmem
              · exact heq ▸ List.mem_append_right path (by simp)
              · exact List.mem_append_left [u] ((hinv.1 x).mp hmem)
            · intro hx
              rcases List.mem_append.mp hx with hmem | heq
              · exact List.mem_cons_of_mem u ((hinv.1 x).mpr hmem)
              · simp only [List.mem_singleton] at heq
                exact heq ▸ List.mem_cons_self u stack
          · rw [List.chain'_append]
            refine ⟨hinv.2, List.chain'_singleton u, ?_⟩
            intro x hx y hy
            simp only [List.head?_cons, Option.mem_def, Option.some.injEq] at hy
            exact hy ▸ hle x hx
        have hle' : ∀ d ∈ (lookupG g u).getD [], lastEdge g (path ++ [u]) d := by
          intro d hd x hx
          rw [List.getLast?_concat] at hx
          simp only [Option.mem_def, Option.some.injEq] at hx
          subst hx
          cases hlk : lookupG g u with
          | none => rw [hlk] at hd; simp at hd
          | some ds =>
            rw [hlk] at hd
            exact ⟨ds, hlk, by simpa using hd⟩
        rcases dfsList_err g fuel ih (u :: stack) (path ++ [u])
            ((lookupG g u).getD []) (some (.ok (u :: visited))) m h hinv' hle'
          with hbad | hfound
        · simp at hbad
        · exact hfound

/-! Lemmas about the topological-sort DFS. -/

theorem dfs_topological_sort_succ (g : List (String × List String))
    (fuel : Nat) (u : String) (visited order : List String) :
    SubProject.dfs_topological_sort g (fuel + 1) u visited order =
      if u ∈ visited then some (visited, order)
      else
        match List.foldl (topoStep g fuel) (some (u :: visited, order))
            ((lookupG g u).getD []) with
        | none => none
        | some (v', o') => some (v', o' ++ [u]) := rfl

theorem topoList_ok (g : List (String × List String)) (fuel : Nat)
    (hB1 : B1Prop g fuel) (grays : List String) :
    ∀ (ds : List String) (acc : Option (List String × List String))
      (v' o' : List String),
      List.foldl (topoStep g fuel) acc ds = some (v', o') →
      ∃ v₀ o₀, acc = some (v₀, o₀) ∧
        (InvT grays v₀ o₀ →
          InvT grays v' o' ∧ (∀ x ∈ o₀, x ∈ o') ∧ (∀ x ∈ v₀, x ∈ v')) := by
  intro ds
  induction ds with
  | nil =>
    intro acc v' o' h
    exact ⟨v', o', h, fun hI => ⟨hI, fun x hx => hx, fun x hx => hx⟩⟩
  | cons d ds ih =>
    intro acc v' o' h
    rw [List.foldl_cons] at h
    obtain ⟨v₁, o₁, hstep, hrest⟩ := ih (topoStep g fuel acc d) v' o' h
    match acc with
    | none => simp [topoStep] at hstep
    | some (v₀, o₀) =>
      refine ⟨v₀, o₀, rfl, fun hI => ?_⟩
      have hstep' : SubProject.dfs_topological_sort g fuel d v₀ o₀ =
          some (v₁, o₁) := hstep
      obtain ⟨hI₁, ho₁, hv₁, _⟩ := hB1 d v₀ o₀ grays v₁ o₁ hstep' hI
      obtain ⟨hI', ho', hv'⟩ := hrest hI₁
      exact ⟨hI', fun x hx => ho' x (ho₁ x hx), fun x hx => hv' x (hv₁ x hx)⟩

theorem topo_sound (g : List (String × List String)) :
    ∀ fuel, B1Prop g fuel := by
  intro fuel
  induction fuel with
  | zero =>
    intro u visited order grays v' o' h
    simp [SubProject.dfs_topological_sort] at h
  | succ fuel ih =>
    intro u visited order grays v' o' h hI
    rw [dfs_topological_sort_succ] at h
    by_cases hvis : u ∈ visited
    · simp only [hvis, if_true, ite_true, Option.some.injEq, Prod.mk.injEq] at h
      obtain ⟨h1, h2⟩ := h
      subst h1; subst h2
      exact ⟨hI, fun x hx => hx, fun x hx => hx, hvis⟩
    · simp only [hvis, if_false, ite_false] at h
      rcases hfold : List.foldl (topoStep g fuel) (some (u :: visited, order))
          ((lookupG g u).getD []) with _ | ⟨v₁, o₁⟩
      · rw [hfold] at h; simp at h
      · rw [hfold] at h
        simp only [Option.some.injEq, Prod.mk.injEq] at h
        obtain ⟨h1, h2⟩ := h
        subst h1; subst h2
        obtain ⟨v₀, o₀, hacc, hbody⟩ :=
          topoList_ok g fuel ih (u :: grays) ((lookupG g u).getD [])
            (some (u :: visited, order)) v₁ o₁ hfold
        have hv₀ : v₀ = u :: visited ∧ order = o₀ := by
          constructor <;> · cases hacc; rfl
        obtain ⟨hveq, hoeq⟩ := hv₀
        subst hveq; subst hoeq
        have hung : u ∉ grays ++ order := by
          intro hc
          rcases List.mem_append.mp hc with h1 | h2
          · exact hvis ((hI.1 u).mpr (Or.inl h1))
          · exact hvis ((hI.1 u).mpr (Or.inr h2))
        have hIin : InvT (u :: grays) (u :: visited) order := by
          constructor
          · intro x
            constructor
            · intro hx
              rcases List.mem_cons.mp hx with heq | hmem
              · exact Or.inl (heq ▸ List.mem_cons_self u grays)
              · rcases (hI.1 x).mp hmem with h1 | h2
                · exact Or.inl (List.mem_cons_of_mem u h1)
                · exact Or.inr h2
            · intro hx
              rcases hx with h1 | h2
              · rcases List.mem_cons.mp h1 with heq | hmem
                · exact heq ▸ List.mem_cons_self u visited
                · exact List.mem_cons_of_mem u ((hI.1 x).mpr (Or.inl hmem))
              · exact List.mem_cons_of_mem u ((hI.1 x).mpr (Or.inr h2))
          · simpa [List.cons_append] using And.intro hung hI.2
        obtain ⟨hI₁, ho₁, hv₁⟩ := hbody hIin
        have huv₁ : u ∈ v₁ := hv₁ u (List.mem_cons_self u visited)
        have hugo₁ : u ∉ grays ++ o₁ := by
          have : (u :: grays ++ o₁).Nodup := by
            simpa [List.cons_append] using hI₁.2
          simpa [List.cons_append] using (List.nodup_cons.mp this).1
        refine ⟨⟨?_, ?_⟩, fun x hx => List.mem_append_left [u] (ho₁ x hx),
          fun x hx => hv₁ x (List.mem_cons_of_mem u hx), huv₁⟩
        · intro x
          constructor
          · intro hx
            rcases (hI₁.1 x).mp hx with h1 | h2
            · rcases List.mem_cons.mp h1 with heq | hmem
              · exact Or.inr (heq ▸ List.mem_append_right o₁ (by simp))
              · exact Or.inl hmem
            · exact Or.inr (List.mem_append_left [u] h2)
          · intro hx
            rcases hx with h1 | h2
            · exact (hI₁.1 x).mpr (Or.inl (List.mem_cons_of_mem u h1))
            · rcases List.mem_append.mp h2 with hmem | heq
              · exact (hI₁.1 x).mpr (Or.inr hmem)
              · simp only [List.mem_singleton] at heq
                exact (hI₁.1 x).mpr (Or.inl (heq ▸ List.mem_cons_self u grays))
        · have hnd : (grays ++ o₁).Nodup := by
            have : (u :: grays ++ o₁).Nodup := by
              simpa [List.cons_append] using hI₁.2
            exact (List.nodup_cons.mp (by simpa [List.cons_append] using this)).2
          rw [show grays ++ (o₁ ++ [u]) = (grays ++ o₁) ++ [u] by
            rw [List.append_assoc]]
          rw [List.nodup_append]
          refine ⟨hnd, List.nodup_singleton u, ?_⟩
          intro x hx
          simp only [List.mem_singleton]
          intro heq
          exact hugo₁ (heq ▸ hx)

/-! Lemmas about the two DFS driver loops. -/

theorem phase1_ok_sound (g : List (String × List String)) (fuel : Nat)
    (hD1 : D1Prop g fuel) :
    ∀ (selfs : List SubProject) (visited v_f : List String),
      phase1 g fuel selfs visited = some (.ok v_f) →
      Pinv g visited [] →
      Pinv g v_f [] ∧ (∀ sp ∈ selfs, sp.name.value ∈ v_f) ∧
        ∀ x ∈ visited, x ∈ v_f := by
  intro selfs
  induction selfs with
  | nil =>
    intro visited v_f h hP
    simp only [phase1, Option.some.injEq, Except.ok.injEq] at h
    subst h
    exact ⟨hP, by simp, fun x hx => hx⟩
  | cons sp rest ih =>
    intro visited v_f h hP
    simp only [phase1] at h
    by_cases hvis : sp.name.value ∈ visited
    · rw [if_pos hvis] at h
      obtain ⟨hP', hrest, hsub⟩ := ih visited v_f h hP
      exact ⟨hP', fun x hx => by
        rcases List.mem_cons.mp hx with heq | hmem
        · exact heq ▸ hsub _ hvis
        · exact hrest x hmem, hsub⟩
    · rw [if_neg hvis] at h
      rcases hdfs : SubProject.dfs_cycle_detection g fuel sp.name.value
          visited [] [] with _ | r
      · rw [hdfs] at h; exact absurd h (by simp)
      · rcases r with cyc | v'
        · rw [hdfs] at h; exact absurd h (by simp)
        · rw [hdfs] at h
          obtain ⟨hPv', hsub', hname, _⟩ :=
            hD1 sp.name.value visited [] [] v' hdfs hP
          obtain ⟨hPf, hrest, hsub⟩ := ih v' v_f h hPv'
          exact ⟨hPf, fun x hx => by
            rcases List.mem_cons.mp hx with heq | hmem
            · exact heq ▸ hsub _ hname
            · exact hrest x hmem, fun x hx => hsub x (hsub' x hx)⟩

theorem phase1_err_sound (g : List (String × List String)) (fuel : Nat)
    (hE1 : E1Prop g fuel) :
    ∀ (selfs : List SubProject) (visited : List String) (e : Error),
      phase1 g fuel selfs visited = some (.error e) →
      ∃ sp cyc, sp ∈ selfs ∧ e = mkCircErr sp cyc ∧
        ∃ p, cyc = String.intercalate (" -> ") p ∧
          ∃ c, IsCycleList g c ∧ ∀ x ∈ c, x ∈ p := by
  intro selfs
  induction selfs with
  | nil =>
    intro visited e h
    simp [phase1] at h
  | cons sp rest ih =>
    intro visited e h
    simp only [phase1] at h
    by_cases hvis : sp.name.value ∈ visited
    · rw [if_pos hvis] at h
      obtain ⟨sp', cyc, hmem, rest'⟩ := ih visited e h
      exact ⟨sp', cyc, List.mem_cons_of_mem sp hmem, rest'⟩
    · rw [if_neg hvis] at h
      rcases hdfs : SubProject.dfs_cycle_detection g fuel sp.name.value
          visited [] [] with _ | r
      · rw [hdfs] at h; exact absurd h (by simp)
      · rcases r with cyc | v'
        · rw [hdfs] at h
          simp only [Option.some.injEq, Except.error.injEq] at h
          obtain ⟨p, hmsg, hc⟩ :=
            hE1 sp.name.value visited [] [] cyc hdfs
              ⟨fun x => by simp, List.chain'_nil⟩ (by intro x hx; simp at hx)
          exact ⟨sp, cyc, List.mem_cons_self sp rest, h.symm, p, hmsg, hc⟩
        · rw [hdfs] at h
          obtain ⟨sp', cyc, hmem, rest'⟩ := ih v' e h
          exact ⟨sp', cyc, List.mem_cons_of_mem sp hmem, rest'⟩

theorem phase2_sound (g : List (String × List String)) (fuel : Nat)
    (hB1 : B1Prop g fuel) :
    ∀ (selfs : List SubProject) (visited order v_f o_f : List String),
      phase2 g fuel selfs visited order = some (v_f, o_f) →
      InvT [] visited order →
      InvT [] v_f o_f ∧ (∀ sp ∈ selfs, sp.name.value ∈ v_f) ∧
        (∀ x ∈ visited, x ∈ v_f) ∧ ∀ x ∈ order, x ∈ o_f := by
  intro selfs
  induction selfs with
  | nil =>
    intro visited order v_f o_f h hI
    simp only [phase2, Option.some.injEq, Prod.mk.injEq] at h
    obtain ⟨h1, h2⟩ := h
    subst h1; subst h2
    exact ⟨hI, by simp, fun x hx => hx, fun x hx => hx⟩
  | cons sp rest ih =>
    intro visited order v_f o_f h hI
    simp only [phase2] at h
    by_cases hvis : sp.name.value ∈ visited
    · rw [if_pos hvis] at h
      obtain ⟨hI', hrest, hsubv, hsubo⟩ := ih visited order v_f o_f h hI
      exact ⟨hI', fun x hx => by
        rcases List.mem_cons.mp hx with heq | hmem
        · exact heq ▸ hsubv _ hvis
        · exact hrest x hmem, hsubv, hsubo⟩
    · rw [if_neg hvis] at h
      rcases htopo : SubProject.dfs_topological_sort g fuel sp.name.value
          visited order with _ | ⟨v', o'⟩
      · rw [htopo] at h; exact absurd h (by simp)
      · rw [htopo] at h
        obtain ⟨hI', ho', hv', hname⟩ :=
          hB1 sp.name.value visited order [] v' o' htopo hI
        obtain ⟨hIf, hrest, hsubv, hsubo⟩ := ih v' o' v_f o_f h hI'
        exact ⟨hIf, fun x hx => by
          rcases List.mem_cons.mp hx with heq | hmem
          · exact heq ▸ hsubv _ hname
          · exact hrest x hmem, fun x hx => hsubv x (hv' x hx),
          fun x hx => hsubo x (ho' x hx)⟩

/-! Lemmas relating the graph to the subproject list. -/

theorem lookup_mem_keys :
    ∀ (l : List (String × List String)) (k : String) (ds : List String),
      List.lookup k l = some ds → k ∈ l.map Prod.fst := by
  intro l
  induction l with
  | nil => intro k ds h; simp [List.lookup] at h
  | cons p rest ih =>
    obtain ⟨a, bs⟩ := p
    intro k ds h
    by_cases heq : k = a
    · simp [heq]
    · have hbeq : (k == a) = false := beq_eq_false_iff_ne.mpr heq
      simp only [List.lookup_cons, hbeq] at h
      exact List.mem_cons_of_mem (a, bs).1 (ih k ds h)

theorem edge_mem_keys (g : List (String × List String)) (u v : String)
    (h : edgeG g u v) : u ∈ g.map Prod.fst := by
  obtain ⟨ds, hlk, _⟩ := h
  have := lookup_mem_keys g.reverse u ds hlk
  simpa [List.map_reverse] using this

theorem depGraph_keys (selfs : List SubProject) :
    (depGraph selfs).map Prod.fst = selfs.map (fun sp => sp.name.value) := by
  simp [depGraph, List.map_map]

theorem no_cycle_of_phase1_ok (selfs : List SubProject) (fuel : Nat)
    (v_f : List String)
    (h : phase1 (depGraph selfs) fuel selfs [] = some (.ok v_f)) :
    ¬ HasCycleG (depGraph selfs) := by
  rintro ⟨u, hcyc⟩
  have hedge : ∃ y, edgeG (depGraph selfs) u y := by
    obtain ⟨c, h1, _⟩ := Relation.TransGen.head'_iff.mp hcyc
    exact ⟨c, h1⟩
  obtain ⟨y, hy⟩ := hedge
  have hukey : u ∈ (depGraph selfs).map Prod.fst :=
    edge_mem_keys (depGraph selfs) u y hy
  rw [depGraph_keys] at hukey
  obtain ⟨sp, hsp, hname⟩ := List.mem_map.mp hukey
  obtain ⟨hPf, hall, _⟩ :=
    phase1_ok_sound (depGraph selfs) fuel
      (dfs_ok_sound (depGraph selfs) fuel) selfs [] v_f h
      (by intro x hx; simp at hx)
  have hsafe : SafeG (depGraph selfs) u := by
    have := hall sp hsp
    rw [hname] at this
    exact hPf u this (by simp)
  exact hsafe u (Relation.ReflTransGen.refl) hcyc

/-! Lemmas about step 6: mapping the order back to subprojects. -/

theorem check_circ_elim (selfs : List SubProject)
    (r : Except Error (List SubProject))
    (h : SubProject.check_circular_dependencies_and_get_build_order selfs =
      some r) :
    (∃ e, r = .error e ∧
      phase1 (depGraph selfs) ((nodesList (depGraph selfs)).length + 1)
        selfs [] = some (.error e)) ∨
    (∃ v1 vf ord,
      phase1 (depGraph selfs) ((nodesList (depGraph selfs)).length + 1)
        selfs [] = some (.ok v1) ∧
      phase2 (depGraph selfs) ((nodesList (depGraph selfs)).length + 1)
        selfs [] [] = some (vf, ord) ∧
      r = .ok (ord.reverse.filterMap
        (fun name => selfs.find? (fun subproject =>
          decide (subproject.name.value = name))))) := by
  unfold SubProject.check_circular_dependencies_and_get_build_order at h
  dsimp only at h
  rcases hp1 : phase1 (depGraph selfs)
      ((nodesList (depGraph selfs)).length + 1) selfs [] with _ | r1
  · rw [hp1] at h; exact absurd h (by simp)
  · rcases r1 with e | v1
    · rw [hp1] at h
      simp only [Option.some.injEq] at h
      exact Or.inl ⟨e, h.symm, rfl⟩
    · rw [hp1] at h
      rcases hp2 : phase2 (depGraph selfs)
          ((nodesList (depGraph selfs)).length + 1) selfs [] [] with _ | ⟨vf, ord⟩
      · rw [hp2] at h; exact absurd h (by simp)
      · rw [hp2] at h
        simp only [Option.some.injEq] at h
        exact Or.inr ⟨v1, vf, ord, rfl, rfl, h.symm⟩

theorem filterMap_find_map_name (selfs : List SubProject) :
    ∀ ord : List String,
      (ord.filterMap (fun name => selfs.find? (fun subproject =>
        decide (subproject.name.value = name)))).map
          (fun sp => sp.name.value) =
      ord.filter (fun name => (selfs.find? (fun subproject =>
        decide (subproject.name.value = name))).isSome) := by
  intro ord
  induction ord with
  | nil => rfl
  | cons n rest ih =>
    rcases hf : selfs.find? (fun subproject =>
        decide (subproject.name.value = n)) with _ | sp
    · simp [List.filterMap_cons, List.filter_cons, hf, ih]
    · have hsp : sp.name.value = n := by
        have := List.find?_some hf
        simpa using this
      simp [List.filterMap_cons, List.filter_cons, hf, ih, hsp]

theorem find_self_of_nodup_names :
    ∀ (selfs : List SubProject) (sp : SubProject),
      (selfs.map (fun x => x.name.value)).Nodup →
      sp ∈ selfs →
      selfs.find? (fun x => decide (x.name.value = sp.name.value)) = some sp := by
  intro selfs
  induction selfs with
  | nil => intro sp _ hmem; simp at hmem
  | cons x rest ih =>
    intro sp hnd hmem
    have hnd' : (rest.map (fun y => y.name.value)).Nodup :=
      (List.nodup_cons.mp hnd).2
    have hxnot : x.name.value ∉ rest.map (fun y => y.name.value) :=
      (List.nodup_cons.mp hnd).1
    rcases List.mem_cons.mp hmem with heq | hmem'
    · subst heq
      simp [List.find?_cons]
    · by_cases hname : x.name.value = sp.name.value

      · exfalso
        apply hxnot
        rw [hname]
        exact List.mem_map.mpr ⟨sp, hmem', rfl⟩
      · have hbeq : (decide (x.name.value = sp.name.value)) = false := by
          simp [hname]
        simp only [List.find?_cons, hbeq]
        exact ih sp hnd' hmem'

theorem buildOrder_perm (selfs : List SubProject) (ord : List String)
    (hnd : (selfs.map (fun sp => sp.name.value)).Nodup)
    (hordnd : ord.Nodup)
    (hcover : ∀ sp ∈ selfs, sp.name.value ∈ ord) :
    (ord.reverse.filterMap (fun name => selfs.find? (fun subproject =>
      decide (subproject.name.value = name)))).Perm selfs := by
  set res := ord.reverse.filterMap (fun name => selfs.find? (fun subproject =>
    decide (subproject.name.value = name))) with hres
  have hselfnd : selfs.Nodup := List.Nodup.of_map _ hnd
  have hresnames : res.map (fun sp => sp.name.value) =
      ord.reverse.filter (fun name => (selfs.find? (fun subproject =>
        decide (subproject.name.value = name))).isSome) :=
    filterMap_find_map_name selfs ord.reverse
  have hresnd : res.Nodup := by
    apply List.Nodup.of_map (fun sp => sp.name.value)
    rw [hresnames]
    exact List.Nodup.filter _ (List.nodup_reverse.mpr hordnd)
  rw [List.perm_ext_iff_of_nodup hresnd hselfnd]
  intro sp
  constructor
  · intro hsp
    obtain ⟨n, _, hfind⟩ := List.mem_filterMap.mp hsp
    exact List.mem_of_find?_eq_some hfind
  · intro hsp
    apply List.mem_filterMap.mpr
    refine ⟨sp.name.value, ?_, find_self_of_nodup_names selfs sp hnd hsp⟩
    rw [List.mem_reverse]
    exact hcover sp hsp

theorem verify_subprojects_elim (selfs : List SubProject)
    (deps : Dependencies) (r : BResult (List SubProject))
    (h : SubProject.verify_subprojects selfs deps = some r) :
    (∃ e libs, SubProject.check_duplicate_names selfs = .ok libs ∧
      SubProject.check_subproject_dependencies selfs deps libs = .ok () ∧
      SubProject.check_circular_dependencies_and_get_build_order selfs =
        some (.error e) ∧ r = .err e) ∨
    (∃ bo libs, SubProject.check_duplicate_names selfs = .ok libs ∧
      SubProject.check_subproject_dependencies selfs deps libs = .ok () ∧
      SubProject.check_circular_dependencies_and_get_build_order selfs =
        some (.ok bo) ∧ r = .ok bo) ∨
    (∃ e, SubProject.check_duplicate_names selfs = .error e ∧ r = .err e) ∨
    (∃ libs e, SubProject.check_duplicate_names selfs = .ok libs ∧
      SubProject.check_subproject_dependencies selfs deps libs = .err e ∧
      r = .err e) ∨
    (∃ libs m, SubProject.check_duplicate_names selfs = .ok libs ∧
      SubProject.check_subproject_dependencies selfs deps libs = .panic m ∧
      r = .panic m) := by
  unfold SubProject.verify_subprojects at h
  rcases hdup : SubProject.check_duplicate_names selfs with e | libs
  · rw [hdup] at h
    dsimp only at h
    simp only [Option.some.injEq] at h
    exact Or.inr (Or.inr (Or.inl ⟨e, rfl, h.symm⟩))
  · rw [hdup] at h
    dsimp only at h
    rcases hrefs : SubProject.check_subproject_dependencies selfs deps libs
        with a | e | m
    · cases a
      rw [hrefs] at h
      dsimp only at h
      rcases hcc : SubProject.check_circular_dependencies_and_get_build_order
          selfs with _ | rc
      · rw [hcc] at h; exact absurd h (by simp)
      · rcases rc with e | bo
        · rw [hcc] at h
          simp only [Option.some.injEq] at h
          exact Or.inl ⟨e, libs, rfl, hrefs, rfl, h.symm⟩
        · rw [hcc] at h
          simp only [Option.some.injEq] at h
          exact Or.inr (Or.inl ⟨bo, libs, rfl, hrefs, rfl, h.symm⟩)
    · rw [hrefs] at h
      dsimp only at h
      simp only [Option.some.injEq] at h
      exact Or.inr (Or.inr (Or.inr (Or.inl ⟨libs, e, rfl, hrefs, h.symm⟩)))
    · rw [hrefs] at h
      dsimp only at h
      simp only [Option.some.injEq] at h
      exact Or.inr (Or.inr (Or.inr (Or.inr ⟨libs, m, rfl, hrefs, h.symm⟩)))

theorem edgeAB : edgeG (depGraph [aLib, bLib]) ("a") ("b") :=
  ⟨["b"], rfl, by simp⟩

theorem edgeBA : edgeG (depGraph [aLib, bLib]) ("b") ("a") :=
  ⟨["a"], rfl, by simp⟩

theorem hasCycleAB : HasCycleG (depGraph [aLib, bLib]) :=
  ⟨"a", Relation.TransGen.head edgeAB (Relation.TransGen.single edgeBA)⟩

/-! Claim theorems. -/

/-- Claim C3, counterexample to the claim as stated: the two-subproject
cycle `a` -> `b` -> `a` between BINARY subprojects is rejected by
reference resolution (`InvalidSubprojectDependency`, since a binary
subproject is not a linkable reference target), not with
`CircularDependency`, even though the dependency references contain a
directed cycle. -/
theorem claim_c3_counterexample :
    HasCycleG (depGraph [aBin, bBin]) ∧
    SubProject.verify_subprojects [aBin, bBin] emptyDeps =
      some (.err { error_type := .InvalidSubprojectDependency,
                   message := "Invalid dependency: b",
                   span := some { lo := 2, hi := 3 },
                   additional_info := none }) ∧
    ErrorType.InvalidSubprojectDependency ≠ ErrorType.CircularDependency := by
  refine ⟨⟨"a", ?_⟩, rfl, by decide⟩
  exact Relation.TransGen.head
    (⟨["b"], rfl, by simp⟩ : edgeG (depGraph [aBin, bBin]) ("a") ("b"))
    (Relation.TransGen.single
      (⟨["a"], rfl, by simp⟩ : edgeG (depGraph [aBin, bBin]) ("b") ("a")))

/-- Claim C3 (amended): when the duplicate-name check and reference
resolution pass, an input whose subproject references contain a directed
cycle makes `verify_subprojects` fail with `CircularDependency`, and the
reported path (the space-joined list in the secondary message) contains a
directed cycle of the graph, every node of which is named in the path; a
cyclic input never yields a build order regardless of the earlier phases;
and the two-library-subproject scenario `a` <-> `b` reports exactly the
path `a -> b -> a`. -/
theorem claim_c3_cycle_soundness :
    (∀ (selfs : List SubProject) (deps : Dependencies) (libs : List String)
        (r : BResult (List SubProject)),
      SubProject.check_duplicate_names selfs = .ok libs →
      SubProject.check_subproject_dependencies selfs deps libs = .ok () →
      HasCycleG (depGraph selfs) →
      SubProject.verify_subprojects selfs deps = some r →
      ∃ e, r = .err e ∧ e.error_type = .CircularDependency ∧
        ∃ p ai, e.additional_info = some ai ∧
          ai.message = "Dependency cycle: " ++
            String.intercalate (" -> ") p ∧
          ∃ c, IsCycleList (depGraph selfs) c ∧ ∀ x ∈ c, x ∈ p) ∧
    (∀ (selfs : List SubProject) (deps : Dependencies)
        (r : BResult (List SubProject)) (l : List SubProject),
      HasCycleG (depGraph selfs) →
      SubProject.verify_subprojects selfs deps = some r → r ≠ .ok l) ∧
    SubProject.verify_subprojects [aLib, bLib] emptyDeps =
      some (.err
        { error_type := .CircularDependency,
          message := "Circular dependency detected in subproject: a",
          span := some { lo := 0, hi := 1 },
          additional_info := some
            { span := { lo := 0, hi := 1 },
              message := "Dependency cycle: a -> b -> a" } }) := by
  refine ⟨?_, ?_, rfl⟩
  · intro selfs deps libs r hdup hrefs hcyc hverify
    rcases verify_subprojects_elim selfs deps r hverify with
      ⟨e, libs', _, _, hcc, hre⟩ | ⟨bo, libs', _, _, hcc, _⟩ |
      ⟨e, hd, _⟩ | ⟨libs', e, hd, hr, _⟩ | ⟨libs', m, hd, hr, _⟩
    · rcases check_circ_elim selfs (.error e) hcc with
        ⟨e', hee, hp1⟩ | ⟨v1, _, _, hp1, _, habs⟩
      · have he' : e' = e := by
          simpa using hee.symm
        rw [he'] at hp1
        obtain ⟨sp, cyc, _, hemk, p, hcyceq, c, hcl, hcp⟩ :=
          phase1_err_sound (depGraph selfs)
            ((nodesList (depGraph selfs)).length + 1)
            (dfs_err_sound (depGraph selfs) _) selfs [] e hp1
        refine ⟨e, hre, by rw [hemk]; rfl, p,
          { span := sp.name.span,
            message := "Dependency cycle: " ++ cyc }, by rw [hemk]; rfl,
          by rw [hcyceq], c, hcl, hcp⟩
      · exact absurd habs (by simp)
    · rcases check_circ_elim selfs (.ok bo) hcc with
        ⟨e', habs, _⟩ | ⟨v1, _, _, hp1, _, _⟩
      · exact absurd habs (by simp)
      · exact absurd hcyc (no_cycle_of_phase1_ok selfs _ v1 hp1)
    · rw [hdup] at hd; exact absurd hd (by simp)
    · rw [hdup] at hd
      have : libs' = libs := by simpa using hd.symm
      subst this
      rw [hrefs] at hr
      exact absurd hr (by simp)
    · rw [hdup] at hd
      have : libs' = libs := by simpa using hd.symm
      subst this
      rw [hrefs] at hr
      exact absurd hr (by simp)
  · intro selfs deps r l hcyc hverify heq
    subst heq
    rcases verify_subprojects_elim selfs deps (.ok l) hverify with
      ⟨e, _, _, _, _, habs⟩ | ⟨bo, libs', _, _, hcc, _⟩ |
      ⟨e, _, habs⟩ | ⟨_, e, _, _, habs⟩ | ⟨_, m, _, _, habs⟩
    · exact absurd habs (by simp)
    · rcases check_circ_elim selfs (.ok bo) hcc with
        ⟨e', habs, _⟩ | ⟨v1, _, _, hp1, _, _⟩
      · exact absurd habs (by simp)
      · exact absurd hcyc (no_cycle_of_phase1_ok selfs _ v1 hp1)
    · exact absurd habs (by simp)
    · exact absurd habs (by simp)
    · exact absurd habs (by simp)

/-- Claim C3, witness: the amended theorem applied to the two-library
cycle scenario, every hypothesis discharged concretely. -/
theorem claim_c3_cycle_soundness_witness :
    HasCycleG (depGraph [aLib, bLib]) ∧
    (∃ e, (BResult.err
        { error_type := .CircularDependency,
          message := "Circular dependency detected in subproject: a",
          span := some { lo := 0, hi := 1 },
          additional_info := some
            { span := { lo := 0, hi := 1 },
              message := "Dependency cycle: a -> b -> a" } } :
            BResult (List SubProject)) = .err e ∧
      e.error_type = .CircularDependency ∧
      ∃ p ai, e.additional_info = some ai ∧
        ai.message = "Dependency cycle: " ++
          String.intercalate (" -> ") p ∧
        ∃ c, IsCycleList (depGraph [aLib, bLib]) c ∧ ∀ x ∈ c, x ∈ p) :=
  ⟨hasCycleAB,
    claim_c3_cycle_soundness.1 [aLib, bLib] emptyDeps ["b", "a"] _
      rfl rfl hasCycleAB rfl⟩

/-- Claim C8, counterexample to the claim as stated: with two subprojects
sharing the name `a`, `check_circular_dependencies_and_get_build_order`
succeeds but returns only the first of them, so the result does not
contain each input subproject exactly once. -/
theorem claim_c8_counterexample :
    SubProject.check_circular_dependencies_and_get_build_order
      [dupA1, dupA2] = some (.ok [dupA1]) ∧
    dupA2 ∈ [dupA1, dupA2] ∧ dupA2 ∉ [dupA1] :=
  ⟨rfl, by simp, by decide⟩

/-- Claim C8 (amended): when the subproject names are pairwise distinct
(as the preceding duplicate-name check of `verify_subprojects`
guarantees) and the function succeeds, its result is a permutation of the
input list: each input subproject occurs exactly once and dependency
names that match no subproject are filtered out. -/
theorem claim_c8_build_order_perm :
    ∀ (selfs res : List SubProject),
      (selfs.map (fun sp => sp.name.value)).Nodup →
      SubProject.check_circular_dependencies_and_get_build_order selfs =
        some (.ok res) →
      res.Perm selfs := by
  intro selfs res hnd h
  rcases check_circ_elim selfs (.ok res) h with
    ⟨e, habs, _⟩ | ⟨v1, vf, ord, hp1, hp2, hres⟩
  · exact absurd habs (by simp)
  · have hres' : res = ord.reverse.filterMap
        (fun name => selfs.find? (fun subproject =>
          decide (subproject.name.value = name))) := by
      simpa using hres
    subst hres'
    obtain ⟨hIf, hall, _, _⟩ :=
      phase2_sound (depGraph selfs) ((nodesList (depGraph selfs)).length + 1)
        (topo_sound (depGraph selfs) _) selfs [] [] vf ord hp2
        ⟨by simp, by simp⟩
    apply buildOrder_perm selfs ord hnd
    · simpa using hIf.2
    · intro sp hsp
      exact ((hIf.1 sp.name.value).mp (hall sp hsp)).resolve_left (by simp)

/-- Claim C8, witness: the amended theorem applied to the
core/engine/game scenario. -/
theorem claim_c8_build_order_perm_witness :
    (([coreSP, engineSP, gameSP] : List SubProject).map
      (fun sp => sp.name.value)).Nodup ∧
    ([gameSP, engineSP, coreSP] : List SubProject).Perm
      [coreSP, engineSP, gameSP] :=
  ⟨by decide,
    claim_c8_build_order_perm [coreSP, engineSP, gameSP]
      [gameSP, engineSP, coreSP] (by decide) rfl⟩

/-- Claim C1: evaluation of the code at the core/engine/game scenario.
Subproject validation succeeds but returns `[game, engine, core]` — the
REVERSE of the topological build order `[core, engine, game]` the claim
states: step 5 of `check_circular_dependencies_and_get_build_order`
reverses the DFS post-order, and with edges pointing from dependent to
dependency the post-order already lists dependencies first, so the
reversal puts dependents first.  In particular `core`, a dependency of
`engine`, gets a LARGER index than `engine`, contradicting the claimed
strict ordering. -/
theorem claim_c1_build_order_reversed :
    SubProject.verify_subprojects [coreSP, engineSP, gameSP] emptyDeps =
      some (.ok [gameSP, engineSP, coreSP]) ∧
    [gameSP, engineSP, coreSP] ≠ [coreSP, engineSP, gameSP] ∧
    ([gameSP, engineSP, coreSP].findIdx
        (fun sp => sp.name.value == "engine") <
      [gameSP, engineSP, coreSP].findIdx
        (fun sp => sp.name.value == "core")) :=
  ⟨rfl, by decide, by decide⟩

/-- Claim C2: evaluation of `verify_config` (the version present in
`src/build_config.rs`) at a configuration whose compiler and dependency
checks pass: after the Settings and Dependencies phases the function
executes an unconditional todo-macro and panics, instead of running the
Subprojects, Overrides and CustomBuildRules phases and returning `Ok` or
`Err`. -/
theorem claim_c2_verify_config_panics :
    BuildConfig.verify_config_src plainCfg allOkProbes =
      .panic ("not yet implemented") := rfl

/-- Claim C4: two evaluations refuting the claimed reference-resolution
behaviour.  First, a Detailed reference to the declared library
subproject `mylib` drives `check_subproject_dependencies` into its
`unreachable!` arm: the validation panics instead of succeeding.  Second,
a Detailed reference matching the declared dependency `zlib` makes the
function return `Ok` for the whole configuration immediately, so the
following unresolvable reference `ghost` is never reported and validation
succeeds. -/
theorem claim_c4_detailed_reference_bugs :
    SubProject.verify_subprojects [mylibSP, appDetailSP] emptyDeps =
      some (.panic ("How did we get here?")) ∧
    SubProject.verify_subprojects [appSkipSP] zlibDeps =
      some (.ok [appSkipSP]) := ⟨rfl, rfl⟩

/-- Claim C5: evaluation of `check_dependencies` at the scenario of the
remote `zlib` declared twice with identical source and no version.  The
validation does fail with `DuplicateDependencySource`, but because the
draining iterator pops entries from the BACK of the vector, the entries
are visited in reverse declaration order: the reported primary span is
the FIRST declaration (bytes 10..20) and the secondary span labelled
with the message about the previous definition points at the SECOND
declaration (bytes 50..60) — the opposite of the claim. -/
theorem claim_c5_duplicate_source_spans :
    Dependencies.check_dependencies zlibTwiceDeps (fun _ => true) =
      .error
        { error_type := .DuplicateDependencySource,
          message := "Duplicate dependency url with same versions",
          span := some { lo := 10, hi := 20 },
          additional_info := some
            { span := { lo := 50, hi := 60 },
              message := "Previously defined here" } } ∧
    zlibRemote.value.source.span = { lo := 10, hi := 20 } ∧
    zlibRemote2.value.source.span = { lo := 50, hi := 60 } ∧
    zlibTwiceDeps.remote = [zlibRemote, zlibRemote2] :=
  ⟨rfl, rfl, rfl, rfl⟩

/-- Claim C6, counterexample to the claim as stated: a remote dependency
with NO declared build method ("anything other than custom" includes an
absent method under the claim's words, which demand build_command and
build_output be absent) carries both a build command and a build output,
yet dependency validation succeeds, because the code only performs the
field checks under `if let Some(build_method)`. -/
theorem claim_c6_counterexample :
    noMethodRemote.value.build_method = none ∧
    noMethodRemote.value.build_command ≠ none ∧
    noMethodRemote.value.build_output ≠ none ∧
    Dependencies.check_dependencies
      { remote := [noMethodRemote], pkg_config := [], manual := [] }
      (fun _ => true) = .ok () :=
  ⟨rfl, by decide, by decide, rfl⟩

/-- Claim C6 (amended): for every remote dependency with a DECLARED build
method, custom requires `build_command` (else `CustomBuildMissing` at the
entry's span) and a declared non-custom method forbids `build_output` and
`build_command` (else `ExtraFieldNonCustomBuild`); a remote with no
declared build method is exempt from both checks.  Stated as: (1)
whenever `check_dependencies` succeeds every remote obeys this
discipline, and (2)/(3) a single offending remote produces exactly the
claimed error kind. -/
theorem claim_c6_build_method_fields :
    (∀ (d : Dependencies) (pkgOk : String → Bool),
      d.check_dependencies pkgOk = .ok () →
      ∀ r ∈ d.remote,
        (r.value.build_method = some RemoteBuildMethod.Custom →
          r.value.build_command ≠ none) ∧
        (∀ m, r.value.build_method = some m → m ≠ RemoteBuildMethod.Custom →
          r.value.build_output = none ∧ r.value.build_command = none)) ∧
    (∀ (r : Spanned RemoteDependency) (pkgOk : String → Bool),
      r.value.build_method = some RemoteBuildMethod.Custom →
      r.value.build_command = none →
      Dependencies.check_dependencies
          { remote := [r], pkg_config := [], manual := [] } pkgOk =
        .error { error_type := .CustomBuildMissing,
                 message := "Custom build method missing build_command",
                 span := some r.span, additional_info := none }) ∧
    (∀ (r : Spanned RemoteDependency) (pkgOk : String → Bool)
        (m : RemoteBuildMethod),
      r.value.build_method = some m → m ≠ RemoteBuildMethod.Custom →
      (r.value.build_output ≠ none ∨ r.value.build_command ≠ none) →
      ∃ e, Dependencies.check_dependencies
          { remote := [r], pkg_config := [], manual := [] } pkgOk =
        .error e ∧ e.error_type = .ExtraFieldNonCustomBuild) := by
  refine ⟨?_, ?_, ?_⟩
  · intro d pkgOk h r hr
    unfold Dependencies.check_dependencies at h
    have hmem : Dependency.remote r ∈ d.drain := by
      rw [drain_eq]
      exact List.mem_append_left _ (List.mem_append_left _
        (List.mem_map_of_mem _ (List.mem_reverse.mpr hr)))
    exact (remoteBuildCheck_ok_iff r).mp
      (cdGo_ok_remote pkgOk d.drain [] [] [] h r hmem)
  · intro r pkgOk hbm hbc
    rw [checkDeps_singleton]
    have : remoteBuildCheck r =
        .error { error_type := .CustomBuildMissing,
                 message := "Custom build method missing build_command",
                 span := some r.span, additional_info := none } := by
      simp [remoteBuildCheck, hbm, hbc]
    rw [this]
  · intro r pkgOk m hbm hcu hor
    rw [checkDeps_singleton]
    rcases hbo : r.value.build_output with _ | bo
    · rcases hbc : r.value.build_command with _ | bc
      · exfalso
        rcases hor with h1 | h2
        · exact h1 hbo
        · exact h2 hbc
      · refine ⟨{ error_type := .ExtraFieldNonCustomBuild,
                  message := "non-Custom build method has build_command",
                  span := some bc.span, additional_info := none }, ?_, rfl⟩
        have : remoteBuildCheck r =
            .error { error_type := .ExtraFieldNonCustomBuild,
                     message := "non-Custom build method has build_command",
                     span := some bc.span, additional_info := none } := by
          simp [remoteBuildCheck, hbm, hbo, hbc, hcu]
        rw [this]
    · refine ⟨{ error_type := .ExtraFieldNonCustomBuild,
                message := "Non-Custom build method has build_output",
                span := some bo.span, additional_info := none }, ?_, rfl⟩
      have : remoteBuildCheck r =
          .error { error_type := .ExtraFieldNonCustomBuild,
                   message := "Non-Custom build method has build_output",
                   span := some bo.span, additional_info := none } := by
        simp [remoteBuildCheck, hbm, hbo, hcu]
      rw [this]

theorem verify_subprojects_err_span (selfs : List SubProject)
    (deps : Dependencies) (e : Error)
    (h : SubProject.verify_subprojects selfs deps = some (.err e)) :
    e.span.isSome := by
  rcases verify_subprojects_elim selfs deps (.err e) h with
    ⟨e', _, _, _, hcc, hre⟩ | ⟨bo, _, _, _, _, habs⟩ |
    ⟨e', hd, hre⟩ | ⟨libs, e', _, hr, hre⟩ | ⟨_, m, _, _, habs⟩
  · have he : e = e' := by simpa using hre
    subst he
    rcases check_circ_elim selfs (.error e) hcc with
      ⟨e2, he2, hp1⟩ | ⟨_, _, _, _, _, habs⟩
    · have he2' : e2 = e := by simpa using he2.symm
      rw [he2'] at hp1
      obtain ⟨sp, cyc, _, hemk, _⟩ :=
        phase1_err_sound (depGraph selfs)
          ((nodesList (depGraph selfs)).length + 1)
          (dfs_err_sound (depGraph selfs) _) selfs [] e hp1
      rw [hemk]
      rfl
    · exact absurd habs (by simp)
  · exact absurd habs (by simp)
  · have he : e = e' := by simpa using hre
    subst he
    exact cdnGo_err_span selfs [] [] e hd
  · have he : e = e' := by simpa using hre
    subst he
    exact check_subproject_dependencies_err_span deps libs selfs e hr
  · exact absurd habs (by simp)

/-- Claim C9: every `Error` value any of the five validator functions can
return carries a present primary span (the diagnostic renderer unwraps it
unconditionally). -/
theorem claim_c9_error_spans_present :
    (∀ (bs : BuildSettings) (p : Probes) (e : Error),
      bs.check_compiler_details p = .error e → e.span.isSome) ∧
    (∀ (d : Dependencies) (pkgOk : String → Bool) (e : Error),
      d.check_dependencies pkgOk = .error e → e.span.isSome) ∧
    (∀ (selfs : List SubProject) (deps : Dependencies) (e : Error),
      SubProject.verify_subprojects selfs deps = some (.err e) →
      e.span.isSome) ∧
    (∀ (selfs : List Override) (sub_projects : List SubProject)
        (setOrder : List (Spanned String) → List (Spanned String)) (e : Error),
      Override.verify_overrides selfs sub_projects setOrder = .error e →
      e.span.isSome) ∧
    (∀ (selfs : List CustomBuildRule) (e : Error),
      CustomBuildRule.verify_custom_build_rules selfs = .error e →
      e.span.isSome) :=
  ⟨check_compiler_details_err_span,
    fun d pkgOk e h => check_dependencies_err_span d pkgOk e h,
    verify_subprojects_err_span,
    verify_overrides_err_span,
    fun selfs e h => cbrGo_err_span selfs [] e h⟩

/-- Claim C9, witness: the settings conjunct applied to a concrete
failing compiler resolution; the produced error's span is present. -/
theorem claim_c9_error_spans_present_witness :
    BuildSettings.check_compiler_details gccSettings
        { whichCompiler := fun _ => none,
          stdSupported := fun _ _ => true,
          pkgExists := fun _ => true } =
      .error { error_type := .IncorrectCompiler,
               message := "Compiler not in path",
               span := some { lo := 110, hi := 113 },
               additional_info := none } ∧
    ({ error_type := .IncorrectCompiler,
       message := "Compiler not in path",
       span := some { lo := 110, hi := 113 },
       additional_info := none } : Error).span.isSome :=
  ⟨rfl,
    claim_c9_error_spans_present.1 gccSettings
      { whichCompiler := fun _ => none,
        stdSupported := fun _ _ => true,
        pkgExists := fun _ => true } _ rfl⟩

/-- Claim C10: the `Dependencies` iterator genuinely drains (each `next`
pops exactly one entry off the end of one of the three vectors), the full
drain visits all entries of the three vectors exactly once (remote, then
pkg-config, then manual, each in reverse declaration order), and the Rust
calls `has_dependency` / `check_dependencies` take the receiver by shared
reference and iterate `self.clone()`, so the caller's collection is
returned unchanged. -/
theorem claim_c10_dependencies_frame :
    (∀ (d : Dependencies) (x : Dependency) (d' : Dependencies),
      d.next = some (x, d') → d'.totalLen + 1 = d.totalLen) ∧
    (∀ d : Dependencies,
      d.drain = d.remote.reverse.map Dependency.remote ++
        d.pkg_config.reverse.map Dependency.pkgConfig ++
        d.manual.reverse.map Dependency.manual) ∧
    (∀ (d : Dependencies) (name : String),
      Dependencies.has_dependency_call d name =
        (Dependencies.has_dependency d name, d)) ∧
    (∀ (d : Dependencies) (pkgOk : String → Bool),
      Dependencies.check_dependencies_call d pkgOk =
        (d.check_dependencies pkgOk, d)) :=
  ⟨next_totalLen, drain_eq, fun _ _ => rfl, fun _ _ => rfl⟩

/-- Claim C10, witness: one concrete `next` call pops the later `zlib`
declaration and leaves the collection holding one entry fewer. -/
theorem claim_c10_dependencies_frame_witness :
    zlibTwiceDeps.next = some (Dependency.remote zlibRemote2, zlibDeps) ∧
    zlibDeps.totalLen + 1 = zlibTwiceDeps.totalLen :=
  ⟨rfl,
    claim_c10_dependencies_frame.1 zlibTwiceDeps
      (Dependency.remote zlibRemote2) zlibDeps rfl⟩

/-- Claim C7: determinism of `verify_config`.  Two runs on the same
configuration whose external probes agree on everything the run can
consult (the `which` resolution of the declared compiler, the standard
probe for the declared standard, and `pkg-config --exists` on the
declared queries) produce the same verdict — same success/failure/panic,
and on success the same validated configuration and build order — even
when the two runs iterate the override name set (a Rust `HashSet`) in
different orders. -/
theorem claim_c7_determinism :
    ∀ (cfg : BuildConfig) (p₁ p₂ : Probes)
      (π₁ π₂ : List (Spanned String) → List (Spanned String)),
      p₁.whichCompiler cfg.build.compiler.value =
        p₂.whichCompiler cfg.build.compiler.value →
      (∀ path, p₁.stdSupported path cfg.build.c_standard.value =
        p₂.stdSupported path cfg.build.c_standard.value) →
      (∀ q ∈ cfg.dependencies.pkg_config.map
        (fun pc => pc.value.pkg_config_query.value),
        p₁.pkgExists q = p₂.pkgExists q) →
      (∀ l, (π₁ l).Perm l) → (∀ l, (π₂ l).Perm l) →
      verdictOf (cfg.verify_config p₁ π₁) =
        verdictOf (cfg.verify_config p₂ π₂) := by
  intro cfg p₁ p₂ π₁ π₂ hw hs hq hπ₁ hπ₂
  unfold BuildConfig.verify_config
  rw [check_compiler_congr cfg.build p₁ p₂ hw hs,
    check_dependencies_congr cfg.dependencies p₁.pkgExists p₂.pkgExists hq]
  rcases hc : cfg.build.check_compiler_details p₂ with e | u
  · simp only [hc]
  · cases u
    simp only [hc]
    rcases hd : cfg.dependencies.check_dependencies p₂.pkgExists with e | u
    · simp only [hd]
    · cases u
      simp only [hd]
      rcases hv : SubProject.verify_subprojects cfg.subprojects
          cfg.dependencies with _ | r
      · simp only [hv]
      · rcases r with bo | e | m
        · simp only [hv]
          rcases ho : cfg.overrides with _ | ovs
          · simp only [ho]
          · simp only [ho]
            rcases hov1 : Override.verify_overrides ovs bo π₁ with e1 | u1
            · rcases hov2 : Override.verify_overrides ovs bo π₂ with e2 | u2
              · simp only [hov1, hov2]
                rfl
              · cases u2
                exfalso
                have : Override.verify_overrides ovs bo π₁ = .ok () :=
                  (verify_overrides_ok_congr ovs bo π₁ π₂ hπ₁ hπ₂).mpr hov2
                rw [hov1] at this
                exact absurd this (by simp)
            · cases u1
              rcases hov2 : Override.verify_overrides ovs bo π₂ with e2 | u2
              · exfalso
                have : Override.verify_overrides ovs bo π₂ = .ok () :=
                  (verify_overrides_ok_congr ovs bo π₁ π₂ hπ₁ hπ₂).mp hov1
                rw [hov2] at this
                exact absurd this (by simp)
              · cases u2
                simp only [hov1, hov2]
        · simp only [hv]
        · simp only [hv]

/-- Claim C7, witness: the determinism theorem applied to a concrete
configuration, two probe assignments that differ outside the consulted
queries, and two different set-iteration orders (identity and reversal). -/
theorem claim_c7_determinism_witness :
    (∀ q ∈ detCfg.dependencies.pkg_config.map
      (fun pc => pc.value.pkg_config_query.value),
      allOkProbes.pkgExists q = otherProbes.pkgExists q) ∧
    verdictOf (detCfg.verify_config allOkProbes id) =
      verdictOf (detCfg.verify_config otherProbes (fun l => l.reverse)) :=
  ⟨by intro q hqm; simp [detCfg, gtkPkgDep, allOkProbes, otherProbes] at hqm ⊢;
      simp [hqm],
    claim_c7_determinism detCfg allOkProbes otherProbes id
      (fun l => l.reverse) rfl (fun _ => rfl)
      (by intro q hqm; simp [detCfg, gtkPkgDep, allOkProbes, otherProbes]
            at hqm ⊢;
          simp [hqm])
      (fun l => List.Perm.refl l) (fun l => List.reverse_perm l)⟩

/-- Claim C6, witness: the amended theorem's custom-missing conjunct
applied to a concrete remote with method custom and no build command. -/
theorem claim_c6_build_method_fields_witness :
    customMissingRemote.value.build_method =
      some RemoteBuildMethod.Custom ∧
    customMissingRemote.value.build_command = none ∧
    Dependencies.check_dependencies
        { remote := [customMissingRemote], pkg_config := [], manual := [] }
        (fun _ => true) =
      .error { error_type := .CustomBuildMissing,
               message := "Custom build method missing build_command",
               span := some { lo := 0, hi := 50 },
               additional_info := none } :=
  ⟨rfl, rfl,
    claim_c6_build_method_fields.2.1 customMissingRemote
      (fun _ => true) rfl rfl⟩

end Cryo
